import Mathlib

/-!
Verification of the coffee-shop sales analysis pipeline
(`coffee_shop_analysis_complete.py`): cleaning, cost estimation,
aggregation and insight generation, embedded shallowly.

Numbers are modelled as exact rationals; pandas missing values (`NaN`/`NaT`)
are modelled by the distinguished cell `Cell.na`, and arithmetic that would
produce `NaN` (division by zero) returns `Option.none`.  Half-even decimal
rounding models `pandas.DataFrame.round`.
-/

deriving instance DecidableEq for Except

set_option maxRecDepth 40000

namespace CoffeeShop

/-- Decimal rounding to `nd` places, ties to even (numpy/pandas `round`). -/
def round_half_even (nd : ℕ) (q : ℚ) : ℚ :=
  let s : ℚ := (10 : ℚ) ^ nd
  let m : ℚ := q * s
  let f : ℤ := Rat.floor m
  let r : ℚ := m - (f : ℚ)
  let n : ℤ :=
    if r < 1/2 then f
    else if (1 : ℚ)/2 < r then f + 1
    else if f % 2 = 0 then f else f + 1
  (n : ℚ) / s

/-- Division with the `NaN`/`inf` outcomes of float division by zero
collapsed into `none`. -/
def div0 (a b : ℚ) : Option ℚ := if b = 0 then none else some (a / b)

/-- `round` applied to a possibly-`NaN` value (`NaN` stays `NaN`). -/
def roundOpt (nd : ℕ) : Option ℚ → Option ℚ
  | none => none
  | some q => some (round_half_even nd q)

/-- A calendar date. -/
structure Date where
  year : ℕ
  month : ℕ
  day : ℕ
deriving DecidableEq

/-- A time of day. -/
structure TimeOfDay where
  hour : ℕ
  minute : ℕ
  second : ℕ
deriving DecidableEq

/-- Serial day number of a Gregorian date, 0 = 1970-01-01 (civil-from-days
algorithm; Lean's `Int` division is floor division for positive divisors,
which is what the algorithm needs). -/
def dayNumber (d : Date) : ℤ :=
  let y : ℤ := if d.month ≤ 2 then (d.year : ℤ) - 1 else (d.year : ℤ)
  let era : ℤ := y / 400
  let yoe : ℤ := y - era * 400
  let mp : ℤ := ((d.month : ℤ) + 9) % 12
  let doy : ℤ := (153 * mp + 2) / 5 + (d.day : ℤ) - 1
  let doe : ℤ := yoe * 365 + yoe / 4 - yoe / 100 + doy
  era * 146097 + doe - 719468

/-- Weekday with Monday = 0 (pandas `Timestamp.weekday`). -/
def weekdayMon0 (d : Date) : ℕ := ((dayNumber d + 3) % 7).toNat

/-- Full weekday name (pandas `day_name()`). -/
def dayName (d : Date) : String :=
  match weekdayMon0 d with
  | 0 => "Monday"
  | 1 => "Tuesday"
  | 2 => "Wednesday"
  | 3 => "Thursday"
  | 4 => "Friday"
  | 5 => "Saturday"
  | _ => "Sunday"

/-- `weekday >= 5` (source line 85). -/
def is_weekendB (d : Date) : Bool := decide (5 ≤ weekdayMon0 d)

/-- A pandas cell: a value of one of the dtypes the pipeline manipulates,
or the missing marker `na` (`NaN`/`NaT`/`None`). -/
inductive Cell where
  | na : Cell
  | str : String → Cell
  | num : ℚ → Cell
  | date : Date → Cell
  | time : TimeOfDay → Cell
  | dt : Date → TimeOfDay → Cell
  | bool : Bool → Cell
deriving DecidableEq

def isNA : Cell → Bool
  | Cell.na => true
  | _ => false

/-- String of decimal digits, non-empty. -/
def digitsOnly (s : String) : Bool := !s.isEmpty && s.data.all Char.isDigit

def natOfDigits (s : String) : ℕ := s.data.foldl (fun n c => 10 * n + (c.toNat - 48)) 0

def isLeapYear (y : ℕ) : Bool := (y % 4 == 0 && y % 100 != 0) || (y % 400 == 0)

def daysInMonth (y m : ℕ) : ℕ :=
  if m = 2 then (if isLeapYear y then 29 else 28)
  else if m = 4 ∨ m = 6 ∨ m = 9 ∨ m = 11 then 30 else 31

/-- Parse a `YYYY-MM-DD` calendar date, validating ranges. -/
def parseDate (s : String) : Option Date :=
  match s.splitOn "-" with
  | [ys, ms, ds] =>
    if digitsOnly ys ∧ ys.length = 4 ∧ digitsOnly ms ∧ ms.length ≤ 2
        ∧ digitsOnly ds ∧ ds.length ≤ 2 then
      let y := natOfDigits ys
      let m := natOfDigits ms
      let dd := natOfDigits ds
      if 1 ≤ m ∧ m ≤ 12 ∧ 1 ≤ dd ∧ dd ≤ daysInMonth y m then some ⟨y, m, dd⟩ else none
    else none
  | _ => none

/-- Parse a strict `%H:%M:%S` time of day. -/
def parseTime (s : String) : Option TimeOfDay :=
  match s.splitOn ":" with
  | [hs, ms, ss] =>
    if digitsOnly hs ∧ hs.length ≤ 2 ∧ digitsOnly ms ∧ ms.length ≤ 2
        ∧ digitsOnly ss ∧ ss.length ≤ 2 then
      let h := natOfDigits hs
      let mi := natOfDigits ms
      let se := natOfDigits ss
      if h ≤ 23 ∧ mi ≤ 59 ∧ se ≤ 59 then some ⟨h, mi, se⟩ else none
    else none
  | _ => none

/-- Parse a decimal numeral, optionally signed, optionally with a
fractional part. -/
def parseNum (s : String) : Option ℚ :=
  let unsigned : String → Option ℚ := fun t =>
    match t.splitOn "." with
    | [a] => if digitsOnly a then some ((natOfDigits a : ℚ)) else none
    | [a, b] =>
      if digitsOnly a ∧ digitsOnly b then
        some ((natOfDigits a : ℚ) + (natOfDigits b : ℚ) / (10 : ℚ) ^ b.length)
      else none
    | _ => none
  if s.startsWith "-" then (unsigned (s.drop 1)).map (fun q => -q) else unsigned s

/-- `pd.to_datetime(col, errors='coerce')`: date strings and datetime-like
values convert, everything else becomes `NaT`. -/
def toDatetimeCoerce : Cell → Cell
  | Cell.str s =>
    match parseDate s with
    | some d => Cell.dt d ⟨0, 0, 0⟩
    | none => Cell.na
  | Cell.date d => Cell.dt d ⟨0, 0, 0⟩
  | Cell.dt d t => Cell.dt d t
  | _ => Cell.na

/-- `pd.to_datetime(col, format='%H:%M:%S', errors='coerce').dt.time`:
strings must match the strict pattern; datetime-like values pass through;
`datetime.time` objects are *not* convertible and coerce to `NaT`. -/
def toTimeCoerce : Cell → Cell
  | Cell.str s =>
    match parseTime s with
    | some t => Cell.time t
    | none => Cell.na
  | Cell.dt _ t => Cell.time t
  | Cell.date _ => Cell.time ⟨0, 0, 0⟩
  | _ => Cell.na

/-- `pd.to_numeric(col, errors='coerce')`. -/
def toNumCoerce : Cell → Cell
  | Cell.num q => Cell.num q
  | Cell.str s =>
    match parseNum s with
    | some q => Cell.num q
    | none => Cell.na
  | Cell.bool b => Cell.num (if b then 1 else 0)
  | _ => Cell.na

/-- One table row: the eight raw columns plus the derived columns the
Cleaner appends.  A raw table leaves the derived columns at `na`. -/
@[ext]
structure Row where
  transaction_id : Cell
  transaction_date : Cell
  transaction_time : Cell
  transaction_qty : Cell
  unit_price : Cell
  store_location : Cell
  product_category : Cell
  product_detail : Cell
  revenue : Cell := Cell.na
  datetime : Cell := Cell.na
  year : Cell := Cell.na
  month : Cell := Cell.na
  day_of_week : Cell := Cell.na
  hour : Cell := Cell.na
  is_weekend : Cell := Cell.na
deriving DecidableEq

/-- Source lines 57-58: coerce the date and time columns. -/
def parseDatesStep (r : Row) : Row :=
  { r with
    transaction_date := toDatetimeCoerce r.transaction_date
    transaction_time := toTimeCoerce r.transaction_time }

/-- Source line 61: `dropna(subset=['transaction_date'])`. -/
def hasDate (r : Row) : Bool := !isNA r.transaction_date

/-- Source line 64: `to_numeric` on the quantity column. -/
def parseQtyStep (r : Row) : Row := { r with transaction_qty := toNumCoerce r.transaction_qty }

/-- Source line 65: keep rows with `transaction_qty > 0` (`NaN > 0` is false). -/
def qtyPos (r : Row) : Bool :=
  match r.transaction_qty with
  | Cell.num q => decide (0 < q)
  | _ => false

/-- Source line 68: `to_numeric` on the price column. -/
def parsePriceStep (r : Row) : Row := { r with unit_price := toNumCoerce r.unit_price }

/-- Source line 70: keep rows with `0.01 <= unit_price <= 15.0`. -/
def priceOk (r : Row) : Bool :=
  match r.unit_price with
  | Cell.num p => decide (1/100 ≤ p ∧ p ≤ 15)
  | _ => false

/-- Source line 73: `dropna(subset=['store_location', 'product_detail'])`. -/
def storeOk (r : Row) : Bool := !isNA r.store_location && !isNA r.product_detail

/-- Source line 76: `revenue = transaction_qty * unit_price`. -/
def revenueStep (r : Row) : Row :=
  { r with
    revenue :=
      match r.transaction_qty, r.unit_price with
      | Cell.num q, Cell.num p => Cell.num (q * p)
      | _, _ => Cell.na }

/-- The datetime recombination (source line 77) stringifies the time column;
a `NaT` time renders as the literal `"NaT"`, which `pd.to_datetime` *without*
`errors='coerce'` fails to parse, raising for the whole column. -/
def timeKnown (r : Row) : Bool :=
  match r.transaction_time with
  | Cell.time _ => true
  | _ => false

/-- Source lines 77-78: combined datetime for rows whose time parsed. -/
def datetimeStep (r : Row) : Row :=
  { r with
    datetime :=
      match r.transaction_date, r.transaction_time with
      | Cell.dt d _, Cell.time t => Cell.dt d t
      | _, _ => Cell.na }

/-- Source lines 81-85: year, month, weekday name, hour, weekend flag. -/
def featuresStep (r : Row) : Row :=
  match r.transaction_date, r.datetime with
  | Cell.dt d _, Cell.dt _ t =>
    { r with
      year := Cell.num (d.year : ℚ)
      month := Cell.num (d.month : ℚ)
      day_of_week := Cell.str (dayName d)
      hour := Cell.num (t.hour : ℚ)
      is_weekend := Cell.bool (is_weekendB d) }
  | _, _ =>
    { r with
      year := Cell.na
      month := Cell.na
      day_of_week := Cell.na
      hour := Cell.na
      is_weekend := Cell.na }

/-- `drop_duplicates()` (source line 88): remove rows equal to an earlier
row, keeping the first occurrence. -/
def dedupFirst {α : Type} [DecidableEq α] : List α → List α
  | [] => []
  | x :: xs => x :: dedupFirst (xs.filter (fun y => decide (y ≠ x)))
termination_by l => l.length
decreasing_by
  simp only [List.length_cons]
  exact Nat.lt_succ_of_le (List.length_filter_le _ _)

/-- The surviving rows after the parsing and filtering steps of
`_clean_data` (source lines 57-76), with `revenue` computed. -/
def stage5 (t : List Row) : List Row :=
  ((((((t.map parseDatesStep).filter hasDate).map parseQtyStep).filter
    qtyPos).map parsePriceStep).filter priceOk).filter storeOk |>.map revenueStep

/-- `_clean_data` up to, but not including, duplicate removal.  The one
step that can throw is the datetime recombination: rows with an unparsable
time carry `NaT`, whose string form poisons the un-guarded `pd.to_datetime`
call on line 77. -/
def cleanCore (t : List Row) : Except String (List Row) :=
  if (stage5 t).all timeKnown then
    Except.ok (((stage5 t).map datetimeStep).map featuresStep)
  else
    Except.error "Unknown datetime string format"

/-- `_clean_data` (source lines 48-99). -/
def clean_data (t : List Row) : Except String (List Row) :=
  (cleanCore t).map dedupFirst

/-- A cleaned transaction, viewed with its columns at their actual dtypes
(the cleaned frame guarantees them). -/
structure Transaction where
  tid : Cell
  tdate : Date
  ttime : TimeOfDay
  qty : ℚ
  price : ℚ
  store : Cell
  category : Cell
  product : Cell
  revenue : ℚ
  year : ℕ
  month : ℕ
  day_name : String
  hour : ℕ
  weekend : Bool
deriving DecidableEq

/-- Typed view of a cleaned row; `none` when a column does not have the
dtype cleaning establishes. -/
def toTransaction (r : Row) : Option Transaction :=
  match r.transaction_date, r.transaction_time, r.transaction_qty, r.unit_price, r.revenue with
  | Cell.dt d _, Cell.time tt, Cell.num q, Cell.num p, Cell.num v =>
    some
      { tid := r.transaction_id, tdate := d, ttime := tt, qty := q, price := p
        store := r.store_location, category := r.product_category
        product := r.product_detail, revenue := v, year := d.year, month := d.month
        day_name := dayName d, hour := tt.hour, weekend := is_weekendB d }
  | _, _, _, _, _ => none

/-- The category → cost-fraction table of `_estimate_costs`
(source lines 137-146), with the `fillna(0.5)` default. -/
def cost_rules : Cell → ℚ
  | Cell.str "Coffee" => 35/100
  | Cell.str "Tea" => 30/100
  | Cell.str "Drinking Chocolate" => 40/100
  | Cell.str "Frappé" => 45/100
  | Cell.str "Smoothies" => 50/100
  | Cell.str "Bakery" => 60/100
  | Cell.str "Branded" => 70/100
  | Cell.str "Flavours" => 25/100
  | _ => 1/2

/-- A transaction with the financial columns of `analyze_profitability`
appended (source lines 110-115). -/
structure Enriched where
  txn : Transaction
  cost_rate : ℚ
  estimated_cost : ℚ
  estimated_profit : ℚ
  profit_margin : Option ℚ
deriving DecidableEq

/-- `_estimate_costs` plus the profit columns of `analyze_profitability`.
The per-record margin `estimated_profit / revenue` has no zero guard in
the source; a zero revenue would give `0/0 = NaN`, modelled as `none`. -/
def enrich (t : Transaction) : Enriched :=
  let rate := cost_rules t.category
  let c := t.revenue * rate
  let p := t.revenue - c
  { txn := t, cost_rate := rate, estimated_cost := c, estimated_profit := p
    profit_margin := div0 p t.revenue }

/-- Insert into a sorted list, before the first element `x` is `le` to
(stable for ties). -/
def insertLe {α : Type} (le : α → α → Bool) (x : α) : List α → List α
  | [] => [x]
  | y :: ys => if le x y then x :: y :: ys else y :: insertLe le x ys

/-- Insertion sort, stable for ties. -/
def sortLe {α : Type} (le : α → α → Bool) : List α → List α
  | [] => []
  | x :: xs => insertLe le x (sortLe le xs)

/-- Boolean `≤` induced by mapping into a linearly ordered type. -/
def keyLe {α κ : Type} [LinearOrder κ] (m : α → κ) (a b : α) : Bool := decide (m a ≤ m b)

/-- Boolean `≥` on the image (descending sorts). -/
def keyGe {α κ : Type} [LinearOrder κ] (m : α → κ) (a b : α) : Bool := decide (m b ≤ m a)

def boolCode (b : Bool) : ℕ := if b then 1 else 0

def dateCode (d : Date) : ℕ := Nat.pair d.year (Nat.pair d.month d.day)

def timeCode (t : TimeOfDay) : ℕ := Nat.pair t.hour (Nat.pair t.minute t.second)

/-- Injective code used to order cells: dtype tag, then numeric part, then
text part, lexicographically.  On homogeneous string keys (the case
`groupby` actually sees) this is the ascending lexicographic key order
pandas produces. -/
def cellKey : Cell → Lex (ℕ × Lex (ℚ × String))
  | Cell.na => toLex (0, toLex (0, ""))
  | Cell.bool b => toLex (1, toLex ((boolCode b : ℚ), ""))
  | Cell.num q => toLex (2, toLex (q, ""))
  | Cell.date d => toLex (3, toLex ((dateCode d : ℚ), ""))
  | Cell.time t => toLex (4, toLex ((timeCode t : ℚ), ""))
  | Cell.dt d t => toLex (5, toLex (((Nat.pair (dateCode d) (timeCode t)) : ℚ), ""))
  | Cell.str s => toLex (6, toLex (0, s))

/-- Total order on cells. -/
def cellLe : Cell → Cell → Bool := keyLe cellKey

/-- `groupby(sort=True)` key list: the distinct keys in ascending order. -/
def uniqueSorted {κ : Type} [DecidableEq κ] (le : κ → κ → Bool) (ks : List κ) : List κ :=
  sortLe le (dedupFirst ks)

def sumBy {α : Type} (f : α → ℚ) (l : List α) : ℚ := (l.map f).sum

/-- `agg({'transaction_id': 'count'})`: pandas `count` counts only the
rows whose `transaction_id` is not missing.  Cleaning never validates the
id column, so missing ids can reach aggregation. -/
def idCount (g : List Enriched) : ℕ := (g.filter (fun e => !isNA e.txn.tid)).length

/-- `nunique`: the number of distinct non-missing values of a column. -/
def nuniqueBy (f : Enriched → Cell) (g : List Enriched) : ℕ :=
  (dedupFirst ((g.map f).filter (fun c => !isNA c))).length

/-- `groupby(sort=True)` key list over a possibly-missing cell column:
rows whose key is missing are dropped (pandas default `dropna=True`), and
the remaining distinct keys are sorted ascending. -/
def groupKeys (f : Enriched → Cell) (l : List Enriched) : List Cell :=
  uniqueSorted cellLe ((l.map f).filter (fun c => !isNA c))

/-- One row of the `_analyze_products` grouped frame.  The `agg` result is
rounded to 2 decimals *before* the derived ratios are computed from it
(source lines 173-184). -/
structure ProductGroup where
  key : Cell
  revenue : ℚ
  estimated_cost : ℚ
  estimated_profit : ℚ
  qty : ℚ
  tx_count : ℕ
  profit_margin : Option ℚ
  avg_profit_per_unit : Option ℚ
deriving DecidableEq

def product_group (l : List Enriched) (k : Cell) : ProductGroup :=
  let g := l.filter (fun e => decide (e.txn.product = k))
  let rev := round_half_even 2 (sumBy (fun e => e.txn.revenue) g)
  let cost := round_half_even 2 (sumBy (fun e => e.estimated_cost) g)
  let prof := round_half_even 2 (sumBy (fun e => e.estimated_profit) g)
  let q := round_half_even 2 (sumBy (fun e => e.txn.qty) g)
  { key := k, revenue := rev, estimated_cost := cost, estimated_profit := prof, qty := q
    tx_count := idCount g
    profit_margin := roundOpt 3 (div0 prof rev)
    avg_profit_per_unit := roundOpt 2 (div0 prof q) }

def product_groups (l : List Enriched) : List ProductGroup :=
  (groupKeys (fun e => e.txn.product) l).map (product_group l)

structure ProductAnalysis where
  product_metrics : List ProductGroup
  top_performers : List ProductGroup
  bottom_performers : List ProductGroup
  total_products : ℕ
  profitable_products : ℕ
deriving DecidableEq

def byProfitDesc : ProductGroup → ProductGroup → Bool := keyGe (fun g => g.estimated_profit)

/-- `_analyze_products` (source lines 171-195). -/
def analyze_products (l : List Enriched) : ProductAnalysis :=
  let m := sortLe byProfitDesc (product_groups l)
  { product_metrics := m
    top_performers := m.take 10
    bottom_performers := m.drop (m.length - 5)
    total_products := m.length
    profitable_products := (m.filter (fun g => decide (0 < g.estimated_profit))).length }

/-- One row of the `_analyze_categories` grouped frame. -/
structure CategoryGroup where
  key : Cell
  revenue : ℚ
  estimated_cost : ℚ
  estimated_profit : ℚ
  qty : ℚ
  tx_count : ℕ
  product_count : ℕ
  profit_margin : Option ℚ
  revenue_share : Option ℚ
deriving DecidableEq

def category_group (l : List Enriched) (k : Cell) : CategoryGroup :=
  let g := l.filter (fun e => decide (e.txn.category = k))
  let rev := round_half_even 2 (sumBy (fun e => e.txn.revenue) g)
  let cost := round_half_even 2 (sumBy (fun e => e.estimated_cost) g)
  let prof := round_half_even 2 (sumBy (fun e => e.estimated_profit) g)
  let q := round_half_even 2 (sumBy (fun e => e.txn.qty) g)
  { key := k, revenue := rev, estimated_cost := cost, estimated_profit := prof, qty := q
    tx_count := idCount g
    product_count := nuniqueBy (fun e => e.txn.product) g
    profit_margin := roundOpt 3 (div0 prof rev)
    revenue_share := none }

/-- Grouped category frame with `revenue_share` relative to the sum of
the (already rounded) per-category revenues (source lines 210-211).
Rows with a missing category — which cleaning does not filter — belong to
no group (`groupby` dropna). -/
def category_groups (l : List Enriched) : List CategoryGroup :=
  let base := (groupKeys (fun e => e.txn.category) l).map (category_group l)
  let totalRev := (base.map (fun g => g.revenue)).sum
  base.map (fun g => { g with revenue_share := roundOpt 3 (div0 g.revenue totalRev) })

structure CategoryAnalysis where
  category_metrics : List CategoryGroup
  total_categories : ℕ
deriving DecidableEq

def byRevenueDescC : CategoryGroup → CategoryGroup → Bool := keyGe (fun g => g.revenue)

/-- `_analyze_categories` (source lines 197-219). -/
def analyze_categories (l : List Enriched) : CategoryAnalysis :=
  let m := sortLe byRevenueDescC (category_groups l)
  { category_metrics := m, total_categories := m.length }

/-- One row of the `_analyze_stores` grouped frame. -/
structure StoreGroup where
  key : Cell
  revenue : ℚ
  estimated_cost : ℚ
  estimated_profit : ℚ
  tx_count : ℕ
  product_count : ℕ
  profit_margin : Option ℚ
  avg_transaction_value : Option ℚ
deriving DecidableEq

def store_group (l : List Enriched) (k : Cell) : StoreGroup :=
  let g := l.filter (fun e => decide (e.txn.store = k))
  let rev := round_half_even 2 (sumBy (fun e => e.txn.revenue) g)
  let cost := round_half_even 2 (sumBy (fun e => e.estimated_cost) g)
  let prof := round_half_even 2 (sumBy (fun e => e.estimated_profit) g)
  { key := k, revenue := rev, estimated_cost := cost, estimated_profit := prof
    tx_count := idCount g
    product_count := nuniqueBy (fun e => e.txn.product) g
    profit_margin := roundOpt 3 (div0 prof rev)
    avg_transaction_value := roundOpt 2 (div0 rev (idCount g : ℚ)) }

def store_groups (l : List Enriched) : List StoreGroup :=
  (groupKeys (fun e => e.txn.store) l).map (store_group l)

structure StoreAnalysis where
  store_metrics : List StoreGroup
  total_stores : ℕ
deriving DecidableEq

def byRevenueDescS : StoreGroup → StoreGroup → Bool := keyGe (fun g => g.revenue)

/-- `_analyze_stores` (source lines 221-242). -/
def analyze_stores (l : List Enriched) : StoreAnalysis :=
  let m := sortLe byRevenueDescS (store_groups l)
  { store_metrics := m, total_stores := m.length }

structure MonthGroup where
  year : ℕ
  month : ℕ
  revenue : ℚ
  estimated_profit : ℚ
  tx_count : ℕ
  profit_margin : Option ℚ
deriving DecidableEq

def natPairLe : ℕ × ℕ → ℕ × ℕ → Bool := keyLe (fun p => toLex p)

def month_group (l : List Enriched) (ym : ℕ × ℕ) : MonthGroup :=
  let g := l.filter (fun e => decide ((e.txn.year, e.txn.month) = ym))
  let rev := round_half_even 2 (sumBy (fun e => e.txn.revenue) g)
  let prof := round_half_even 2 (sumBy (fun e => e.estimated_profit) g)
  { year := ym.1, month := ym.2, revenue := rev, estimated_profit := prof
    tx_count := idCount g, profit_margin := roundOpt 3 (div0 prof rev) }

def monthly_trends (l : List Enriched) : List MonthGroup :=
  (uniqueSorted natPairLe (l.map (fun e => (e.txn.year, e.txn.month)))).map (month_group l)

/-- Weekday view: `agg` means, so a group's revenue is its mean revenue. -/
structure DayGroup where
  key : String
  revenue : Option ℚ
  estimated_profit : Option ℚ
  tx_count : ℕ
deriving DecidableEq

def strLe : String → String → Bool := keyLe (fun s => s)

def day_group (l : List Enriched) (k : String) : DayGroup :=
  let g := l.filter (fun e => decide (e.txn.day_name = k))
  { key := k
    revenue := roundOpt 2 (div0 (sumBy (fun e => e.txn.revenue) g) (g.length : ℚ))
    estimated_profit := roundOpt 2 (div0 (sumBy (fun e => e.estimated_profit) g) (g.length : ℚ))
    tx_count := idCount g }

def daily_patterns (l : List Enriched) : List DayGroup :=
  (uniqueSorted strLe (l.map (fun e => e.txn.day_name))).map (day_group l)

structure HourGroup where
  key : ℕ
  revenue : Option ℚ
  estimated_profit : Option ℚ
  tx_count : ℕ
deriving DecidableEq

def natLe : ℕ → ℕ → Bool := keyLe (fun n => n)

def hour_group (l : List Enriched) (k : ℕ) : HourGroup :=
  let g := l.filter (fun e => decide (e.txn.hour = k))
  { key := k
    revenue := roundOpt 2 (div0 (sumBy (fun e => e.txn.revenue) g) (g.length : ℚ))
    estimated_profit := roundOpt 2 (div0 (sumBy (fun e => e.estimated_profit) g) (g.length : ℚ))
    tx_count := idCount g }

def hourly_patterns (l : List Enriched) : List HourGroup :=
  (uniqueSorted natLe (l.map (fun e => e.txn.hour))).map (hour_group l)

/-- `idxmax`: the first element attaining the maximum of `f`. -/
def firstMaxBy {α : Type} (f : α → ℚ) : List α → Option α
  | [] => none
  | x :: xs =>
    match firstMaxBy f xs with
    | none => some x
    | some y => if f x < f y then some y else some x

def optVal : Option ℚ → ℚ
  | none => 0
  | some q => q

structure TemporalAnalysis where
  monthly_trends : List MonthGroup
  daily_patterns : List DayGroup
  hourly_patterns : List HourGroup
  peak_month : Option ℕ
  peak_day : Option String
  peak_hour : Option ℕ
deriving DecidableEq

/-- `_analyze_temporal_patterns` (source lines 244-277). `peak_month` is
the `month` field of the max-revenue (year, month) row. -/
def analyze_temporal_patterns (l : List Enriched) : TemporalAnalysis :=
  let mt := monthly_trends l
  let dp := daily_patterns l
  let hp := hourly_patterns l
  { monthly_trends := mt, daily_patterns := dp, hourly_patterns := hp
    peak_month := (firstMaxBy (fun g => g.revenue) mt).map (fun g => g.month)
    peak_day := (firstMaxBy (fun g => optVal g.revenue) dp).map (fun g => g.key)
    peak_hour := (firstMaxBy (fun g => optVal g.revenue) hp).map (fun g => g.key) }

structure FinancialSummary where
  total_revenue : ℚ
  total_estimated_cost : ℚ
  total_estimated_profit : ℚ
  overall_profit_margin : ℚ
  total_transactions : ℕ
  avg_transaction_value : Option ℚ
  avg_transaction_profit : Option ℚ
  analysis_period_days : Option ℤ
deriving DecidableEq

/-- `_analyze_financial_summary` (source lines 154-169).  The overall
margin carries the explicit `if total_revenue > 0 else 0` guard. -/
def analyze_financial_summary (l : List Enriched) : FinancialSummary :=
  let tr := sumBy (fun e => e.txn.revenue) l
  let tc := sumBy (fun e => e.estimated_cost) l
  let tp := sumBy (fun e => e.estimated_profit) l
  { total_revenue := tr, total_estimated_cost := tc, total_estimated_profit := tp
    overall_profit_margin := if 0 < tr then tp / tr else 0
    total_transactions := l.length
    avg_transaction_value := div0 tr (l.length : ℚ)
    avg_transaction_profit := div0 tp (l.length : ℚ)
    analysis_period_days :=
      match l.map (fun e => dayNumber e.txn.tdate) with
      | [] => none
      | d :: ds => some ((ds.foldl max d) - (ds.foldl min d) + 1) }

def cellText : Cell → String
  | Cell.str s => s
  | _ => ""

/-- `', '.join`. -/
def joinComma : List String → String
  | [] => ""
  | [s] => s
  | s :: rest => s ++ ", " ++ joinComma rest

def headKeyC : List CategoryGroup → String
  | g :: _ => cellText g.key
  | [] => ""

def headKeyS : List StoreGroup → String
  | g :: _ => cellText g.key
  | [] => ""

structure Insights where
  key_insights : List String
  recommendations : List String
deriving DecidableEq

/-- The best-performing-store insight text (source line 317). -/
def bestStoreInsight (s : String) : String := "Best performing store: " ++ s

/-- `_generate_insights` (source lines 279-327).  At its only call site the
results cache is still empty, so every `get(..., default)` recomputes its
summary from the enriched data. -/
def generate_insights (l : List Enriched) : Insights :=
  let fin := analyze_financial_summary l
  let pa := analyze_products l
  let ca := analyze_categories l
  let sa := analyze_stores l
  let ta := analyze_temporal_patterns l
  let marginIns : List String × List String :=
    if 1/2 < fin.overall_profit_margin then
      (["Strong profitability with >50% profit margin"], [])
    else if 3/10 < fin.overall_profit_margin then
      (["Healthy profitability with moderate margins"], [])
    else
      (["Profitability needs improvement"], ["Review pricing strategy and cost optimization"])
  let topIns :=
    "Top 3 profit generators: " ++ joinComma ((pa.top_performers.take 3).map (fun g => cellText g.key))
  let lowCount :=
    (pa.product_metrics.filter (fun g =>
      match g.profit_margin with
      | some m => decide (m < 1/5)
      | none => false)).length
  let lowRecs : List String :=
    if 0 < lowCount then ["Review " ++ toString lowCount ++ " products with <20% profit margin"]
    else []
  let catIns := "Most profitable category: " ++ headKeyC ca.category_metrics
  let storeIns : List String :=
    if 1 < sa.store_metrics.length then [bestStoreInsight (headKeyS sa.store_metrics)]
    else []
  let peakIns :=
    "Peak performance: Month " ++ toString ((ta.peak_month).getD 0) ++ ", "
      ++ (ta.peak_day).getD "" ++ "s, " ++ toString ((ta.peak_hour).getD 0) ++ ":00"
  { key_insights := marginIns.1 ++ [topIns] ++ [catIns] ++ storeIns ++ [peakIns]
    recommendations := marginIns.2 ++ lowRecs }

structure AnalysisResults where
  enriched : List Enriched
  financial_summary : FinancialSummary
  product_analysis : ProductAnalysis
  category_analysis : CategoryAnalysis
  store_analysis : StoreAnalysis
  temporal_analysis : TemporalAnalysis
  insights : Insights
deriving DecidableEq

/-- `analyze_profitability` (source lines 101-132).  On an empty cleaned
frame `idxmax` raises inside `_analyze_temporal_patterns`, so the method
never returns; this is the `error` branch. -/
def analyze_profitability (rows : List Row) : Except String AnalysisResults :=
  match rows.mapM toTransaction with
  | none => Except.error "missing column"
  | some ts =>
    let l := ts.map enrich
    if l.isEmpty then Except.error "attempt to get argmax of an empty sequence"
    else
      Except.ok
        { enriched := l
          financial_summary := analyze_financial_summary l
          product_analysis := analyze_products l
          category_analysis := analyze_categories l
          store_analysis := analyze_stores l
          temporal_analysis := analyze_temporal_patterns l
          insights := generate_insights l }

/-- `run_complete_analysis` up to report rendering: clean, then analyze. -/
def run_complete (t : List Row) : Except String AnalysisResults :=
  (clean_data t).bind analyze_profitability

/-- The enriched transaction set the pipeline stores back into
`self.cleaned_data` (empty when the pipeline fails). -/
def pipelineEnriched (t : List Row) : List Enriched :=
  match run_complete t with
  | Except.ok R => R.enriched
  | Except.error _ => []

/-- The §3/§8 invariants of a cleaned transaction row. -/
def cleanRowOk (r : Row) : Prop :=
  ∃ q p : ℚ, r.transaction_qty = Cell.num q ∧ 0 < q ∧
    r.unit_price = Cell.num p ∧ 1/100 ≤ p ∧ p ≤ 15 ∧
    isNA r.store_location = false ∧ isNA r.product_detail = false ∧
    r.revenue = Cell.num (q * p)

/-- Accessors used when summing columns of the enriched frame. -/
def revOf (e : Enriched) : ℚ := e.txn.revenue

def qtyOf (e : Enriched) : ℚ := e.txn.qty

def profOf (e : Enriched) : ℚ := e.estimated_profit

/-- The rows of one `product_detail` group. -/
def productOf (l : List Enriched) (k : Cell) : List Enriched :=
  l.filter (fun e => decide (e.txn.product = k))

/-- The rows of one `product_category` group. -/
def categoryOf (l : List Enriched) (k : Cell) : List Enriched :=
  l.filter (fun e => decide (e.txn.category = k))

/-- The rows of one `store_location` group. -/
def storeOf (l : List Enriched) (k : Cell) : List Enriched :=
  l.filter (fun e => decide (e.txn.store = k))

/-- The rows of one (year, month) group. -/
def monthOf (l : List Enriched) (ym : ℕ × ℕ) : List Enriched :=
  l.filter (fun e => decide ((e.txn.year, e.txn.month) = ym))

/-- `category_metrics['revenue'].sum()`: the sum of the already-rounded
per-category revenues, the denominator of `revenue_share`. -/
def categoryRevenueTotal (l : List Enriched) : ℚ :=
  ((groupKeys (fun e => e.txn.category) l).map
    (fun k => round_half_even 2 (sumBy revOf (categoryOf l k)))).sum

/-- Per-store transaction counts, in summary order. -/
def storeTxCounts (l : List Enriched) : List ℕ :=
  (analyze_stores l).store_metrics.map (fun g => g.tx_count)

/-- Per-category transaction counts, in summary order. -/
def categoryTxCounts (l : List Enriched) : List ℕ :=
  (analyze_categories l).category_metrics.map (fun g => g.tx_count)

/-- Equality on the eight original raw columns. -/
def sameRaw (a b : Row) : Prop :=
  a.transaction_id = b.transaction_id ∧ a.transaction_date = b.transaction_date ∧
  a.transaction_time = b.transaction_time ∧ a.transaction_qty = b.transaction_qty ∧
  a.unit_price = b.unit_price ∧ a.store_location = b.store_location ∧
  a.product_category = b.product_category ∧ a.product_detail = b.product_detail

/-- No two rows coincide on all original raw columns. -/
def rawDistinct (l : List Row) : Prop := l.Pairwise (fun a b => ¬sameRaw a b)

def headChar (s : String) : Option Char := s.data.head?

def headStoreRevenue : List StoreGroup → ℚ
  | g :: _ => g.revenue
  | [] => 0

/-- The product margin under the specification's single-rounding reading:
the ratio of the *un-rounded* profit and revenue sums, rounded once at the
end (to be compared with the `product_group` margin the code computes). -/
def specProductMarginOnce (l : List Enriched) (k : Cell) : Option ℚ :=
  let g := l.filter (fun e => decide (e.txn.product = k))
  roundOpt 3 (div0 (sumBy (fun e => e.estimated_profit) g) (sumBy (fun e => e.txn.revenue) g))

/-- A well-formed raw row (scenario A: qty 2, price 3.50, Coffee). -/
def rowA : Row :=
  { transaction_id := Cell.num 1, transaction_date := Cell.str "2023-06-01"
    transaction_time := Cell.str "08:30:00", transaction_qty := Cell.str "2"
    unit_price := Cell.str "3.50", store_location := Cell.str "Astoria"
    product_category := Cell.str "Coffee", product_detail := Cell.str "Latte" }

/-- A second well-formed raw row at a different store. -/
def rowB : Row :=
  { transaction_id := Cell.num 2, transaction_date := Cell.str "2023-06-02"
    transaction_time := Cell.str "09:00:00", transaction_qty := Cell.str "1"
    unit_price := Cell.str "3.00", store_location := Cell.str "Lower Manhattan"
    product_category := Cell.str "Tea", product_detail := Cell.str "Chai" }

/-- `rowA` with its transaction_id missing: cleaning never validates the id
column, so this row survives to aggregation, where pandas `count` excludes
its id. -/
def rowNoId : Row := { rowA with transaction_id := Cell.na }

/-- `rowB` with its product_category missing: cleaning checks only
store_location and product_detail, so this row survives, and `groupby`
drops it from every category group. -/
def rowNoCat : Row := { rowB with product_category := Cell.na }

/-- A raw row whose time fails the strict `%H:%M:%S` parse. -/
def rowBadTime : Row :=
  { transaction_id := Cell.num 3, transaction_date := Cell.str "2023-06-01"
    transaction_time := Cell.str "25:99:00", transaction_qty := Cell.str "1"
    unit_price := Cell.str "3.00", store_location := Cell.str "Astoria"
    product_category := Cell.str "Tea", product_detail := Cell.str "Chai" }

/-- A legal raw row (fractional quantity) whose revenue `0.004` rounds to
`0.00` in the aggregated frame. -/
def rowTiny : Row :=
  { transaction_id := Cell.num 4, transaction_date := Cell.str "2023-06-01"
    transaction_time := Cell.str "08:30:00", transaction_qty := Cell.str "0.4"
    unit_price := Cell.str "0.01", store_location := Cell.str "Astoria"
    product_category := Cell.str "Coffee", product_detail := Cell.str "Tiny" }

/-- A legal raw row whose profit sum `0.1625` rounds differently before
and after the margin division. -/
def rowQuarter : Row :=
  { transaction_id := Cell.num 5, transaction_date := Cell.str "2023-06-01"
    transaction_time := Cell.str "08:30:00", transaction_qty := Cell.str "1"
    unit_price := Cell.str "0.25", store_location := Cell.str "Astoria"
    product_category := Cell.str "Coffee", product_detail := Cell.str "Drip" }

/-- The cleaned form of `rowA`. -/
def cleanedRowA : Row :=
  { transaction_id := Cell.num 1, transaction_date := Cell.dt ⟨2023, 6, 1⟩ ⟨0, 0, 0⟩
    transaction_time := Cell.time ⟨8, 30, 0⟩, transaction_qty := Cell.num 2
    unit_price := Cell.num (7/2), store_location := Cell.str "Astoria"
    product_category := Cell.str "Coffee", product_detail := Cell.str "Latte"
    revenue := Cell.num 7, datetime := Cell.dt ⟨2023, 6, 1⟩ ⟨8, 30, 0⟩
    year := Cell.num 2023, month := Cell.num 6, day_of_week := Cell.str "Thursday"
    hour := Cell.num 8, is_weekend := Cell.bool false }

/-- The cleaned form of `rowB`. -/
def cleanedRowB : Row :=
  { transaction_id := Cell.num 2, transaction_date := Cell.dt ⟨2023, 6, 2⟩ ⟨0, 0, 0⟩
    transaction_time := Cell.time ⟨9, 0, 0⟩, transaction_qty := Cell.num 1
    unit_price := Cell.num 3, store_location := Cell.str "Lower Manhattan"
    product_category := Cell.str "Tea", product_detail := Cell.str "Chai"
    revenue := Cell.num 3, datetime := Cell.dt ⟨2023, 6, 2⟩ ⟨9, 0, 0⟩
    year := Cell.num 2023, month := Cell.num 6, day_of_week := Cell.str "Friday"
    hour := Cell.num 9, is_weekend := Cell.bool false }

/-- A typed transaction for use as aggregation input. -/
def txnA : Transaction :=
  { tid := Cell.num 1, tdate := ⟨2023, 6, 1⟩, ttime := ⟨8, 30, 0⟩, qty := 2, price := 7/2
    store := Cell.str "Astoria", category := Cell.str "Coffee", product := Cell.str "Latte"
    revenue := 7, year := 2023, month := 6, day_name := "Thursday", hour := 8, weekend := false }

/-- A second typed transaction, different store, category and product. -/
def txnB : Transaction :=
  { tid := Cell.num 2, tdate := ⟨2023, 6, 2⟩, ttime := ⟨9, 0, 0⟩, qty := 1, price := 3
    store := Cell.str "Lower Manhattan", category := Cell.str "Tea", product := Cell.str "Chai"
    revenue := 3, year := 2023, month := 6, day_name := "Friday", hour := 9, weekend := false }

/-! ### Generic lemmas about deduplication -/

theorem dedupFirst_cons {α : Type} [DecidableEq α] (x : α) (xs : List α) :
    dedupFirst (x :: xs) = x :: dedupFirst (xs.filter (fun y => decide (y ≠ x))) := by
  rw [dedupFirst]

theorem mem_dedupFirst {α : Type} [DecidableEq α] : ∀ (l : List α) (a : α),
    a ∈ dedupFirst l ↔ a ∈ l
  | [], a => by simp [dedupFirst]
  | x :: xs, a => by
    rw [dedupFirst_cons]
    by_cases hax : a = x
    · subst hax; simp
    · have ih := mem_dedupFirst (xs.filter (fun y => decide (y ≠ x))) a
      simp only [List.mem_cons, ih, List.mem_filter, decide_eq_true_eq, ne_eq]
      tauto
termination_by l => l.length
decreasing_by
  simp only [List.length_cons]
  exact Nat.lt_succ_of_le (List.length_filter_le _ _)

theorem nodup_dedupFirst {α : Type} [DecidableEq α] : ∀ (l : List α), (dedupFirst l).Nodup
  | [] => by simp [dedupFirst]
  | x :: xs => by
    rw [dedupFirst_cons]
    refine List.nodup_cons.mpr ⟨?_, nodup_dedupFirst _⟩
    intro hx
    have hmem := (mem_dedupFirst _ x).mp hx
    simp [List.mem_filter] at hmem
termination_by l => l.length
decreasing_by
  simp only [List.length_cons]
  exact Nat.lt_succ_of_le (List.length_filter_le _ _)

theorem dedupFirst_sublist {α : Type} [DecidableEq α] : ∀ (l : List α), (dedupFirst l).Sublist l
  | [] => by simp [dedupFirst]
  | x :: xs => by
    rw [dedupFirst_cons]
    exact List.Sublist.cons₂ x ((dedupFirst_sublist _).trans (List.filter_sublist xs))
termination_by l => l.length
decreasing_by
  simp only [List.length_cons]
  exact Nat.lt_succ_of_le (List.length_filter_le _ _)

/-! ### Generic lemmas about the insertion sort -/

theorem insertLe_perm {α : Type} (le : α → α → Bool) (x : α) :
    ∀ (l : List α), (insertLe le x l).Perm (x :: l)
  | [] => by simp [insertLe]
  | y :: ys => by
    simp only [insertLe]
    by_cases h : le x y = true
    · rw [if_pos h]
    · rw [if_neg h]
      exact ((insertLe_perm le x ys).cons y).trans (List.Perm.swap x y ys)

theorem sortLe_perm {α : Type} (le : α → α → Bool) : ∀ (l : List α), (sortLe le l).Perm l
  | [] => by simp [sortLe]
  | x :: xs => by
    simp only [sortLe]
    exact (insertLe_perm le x (sortLe le xs)).trans ((sortLe_perm le xs).cons x)

theorem insertLe_pairwise {α : Type} {le : α → α → Bool}
    (htot : ∀ a b, le a b = true ∨ le b a = true)
    (htr : ∀ a b c, le a b = true → le b c = true → le a c = true)
    (x : α) : ∀ {l : List α}, l.Pairwise (fun a b => le a b = true) →
      (insertLe le x l).Pairwise (fun a b => le a b = true)
  | [], _ => by simp [insertLe]
  | y :: ys, hl => by
    simp only [insertLe]
    by_cases h : le x y = true
    · rw [if_pos h]
      refine List.Pairwise.cons ?_ hl
      intro z hz
      rcases List.mem_cons.mp hz with rfl | hz'
      · exact h
      · exact htr x y z h (List.rel_of_pairwise_cons hl hz')
    · rw [if_neg h]
      have hyx : le y x = true := (htot x y).resolve_left h
      refine List.Pairwise.cons ?_ (insertLe_pairwise htot htr x (List.Pairwise.of_cons hl))
      intro z hz
      rcases List.mem_cons.mp ((insertLe_perm le x ys).mem_iff.mp hz) with rfl | hz'
      · exact hyx
      · exact List.rel_of_pairwise_cons hl hz'

theorem sortLe_pairwise {α : Type} {le : α → α → Bool}
    (htot : ∀ a b, le a b = true ∨ le b a = true)
    (htr : ∀ a b c, le a b = true → le b c = true → le a c = true) :
    ∀ (l : List α), (sortLe le l).Pairwise (fun a b => le a b = true)
  | [] => by simp [sortLe]
  | x :: xs => by
    simp only [sortLe]
    exact insertLe_pairwise htot htr x (sortLe_pairwise htot htr xs)

theorem eq_of_perm_of_pairwise {α : Type} {le : α → α → Bool}
    (hanti : ∀ a b, le a b = true → le b a = true → a = b) :
    ∀ {l₁ l₂ : List α}, l₁.Perm l₂ → l₁.Pairwise (fun a b => le a b = true) →
      l₂.Pairwise (fun a b => le a b = true) → l₁ = l₂
  | [], l₂, hp, _, _ => (List.perm_nil.mp hp.symm).symm
  | a :: t₁, l₂, hp, h₁, h₂ => by
    match l₂ with
    | [] => exact absurd (List.perm_nil.mp hp) (by simp)
    | b :: t₂ =>
      have hab : a = b := by
        rcases List.mem_cons.mp (hp.mem_iff.mp (List.mem_cons_self a t₁)) with h | h
        · exact h
        · rcases List.mem_cons.mp (hp.mem_iff.mpr (List.mem_cons_self b t₂)) with h' | h'
          · exact h'.symm
          · exact hanti a b (List.rel_of_pairwise_cons h₁ h') (List.rel_of_pairwise_cons h₂ h)
      subst hab
      have ht := eq_of_perm_of_pairwise hanti hp.cons_inv
        (List.Pairwise.of_cons h₁) (List.Pairwise.of_cons h₂)
      rw [ht]

theorem perm_of_nodup_of_mem_iff {α : Type} [DecidableEq α] {l₁ l₂ : List α}
    (h₁ : l₁.Nodup) (h₂ : l₂.Nodup) (h : ∀ a, a ∈ l₁ ↔ a ∈ l₂) : l₁.Perm l₂ := by
  rw [List.perm_iff_count]
  intro a
  by_cases hm : a ∈ l₁
  · have hm₂ : a ∈ l₂ := (h a).mp hm
    have u₁ := List.nodup_iff_count_le_one.mp h₁ a
    have u₂ := List.nodup_iff_count_le_one.mp h₂ a
    have p₁ := List.count_pos_iff.mpr hm
    have p₂ := List.count_pos_iff.mpr hm₂
    omega
  · rw [List.count_eq_zero.mpr hm, List.count_eq_zero.mpr (fun hx => hm ((h a).mpr hx))]

theorem uniqueSorted_eq_of_mem_iff {κ : Type} [DecidableEq κ] {le : κ → κ → Bool}
    (htot : ∀ a b, le a b = true ∨ le b a = true)
    (htr : ∀ a b c, le a b = true → le b c = true → le a c = true)
    (hanti : ∀ a b, le a b = true → le b a = true → a = b)
    {ks₁ ks₂ : List κ} (h : ∀ k, k ∈ ks₁ ↔ k ∈ ks₂) :
    uniqueSorted le ks₁ = uniqueSorted le ks₂ := by
  apply eq_of_perm_of_pairwise hanti
  · exact (sortLe_perm le _).trans
      ((perm_of_nodup_of_mem_iff (nodup_dedupFirst _) (nodup_dedupFirst _)
        (fun a => (mem_dedupFirst _ a).trans ((h a).trans (mem_dedupFirst _ a).symm))).trans
        (sortLe_perm le _).symm)
  · exact sortLe_pairwise htot htr _
  · exact sortLe_pairwise htot htr _

theorem mem_uniqueSorted {κ : Type} [DecidableEq κ] (le : κ → κ → Bool) (ks : List κ) (a : κ) :
    a ∈ uniqueSorted le ks ↔ a ∈ ks :=
  ((sortLe_perm le _).mem_iff).trans (mem_dedupFirst _ a)

theorem nodup_uniqueSorted {κ : Type} [DecidableEq κ] (le : κ → κ → Bool) (ks : List κ) :
    (uniqueSorted le ks).Nodup :=
  (sortLe_perm le _).symm.nodup (nodup_dedupFirst _)

/-! ### Order properties of the key orders -/

theorem keyLe_total {α κ : Type} [LinearOrder κ] (m : α → κ) (a b : α) :
    keyLe m a b = true ∨ keyLe m b a = true := by
  simp only [keyLe, decide_eq_true_eq]
  exact le_total _ _

theorem keyLe_trans {α κ : Type} [LinearOrder κ] (m : α → κ) (a b c : α) :
    keyLe m a b = true → keyLe m b c = true → keyLe m a c = true := by
  simp only [keyLe, decide_eq_true_eq]
  exact le_trans

theorem keyLe_antisymm {α κ : Type} [LinearOrder κ] {m : α → κ} (hm : Function.Injective m)
    (a b : α) : keyLe m a b = true → keyLe m b a = true → a = b := by
  simp only [keyLe, decide_eq_true_eq]
  intro h1 h2
  exact hm (le_antisymm h1 h2)

theorem keyGe_total {α κ : Type} [LinearOrder κ] (m : α → κ) (a b : α) :
    keyGe m a b = true ∨ keyGe m b a = true := by
  simp only [keyGe, decide_eq_true_eq]
  exact (le_total _ _).symm

theorem keyGe_trans {α κ : Type} [LinearOrder κ] (m : α → κ) (a b c : α) :
    keyGe m a b = true → keyGe m b c = true → keyGe m a c = true := by
  simp only [keyGe, decide_eq_true_eq]
  intro h1 h2
  exact le_trans h2 h1

theorem boolCode_inj : Function.Injective boolCode := by
  intro a b h
  cases a <;> cases b <;> simp_all [boolCode]

theorem dateCode_inj : Function.Injective dateCode := by
  intro a b h
  simp only [dateCode, Nat.pair_eq_pair] at h
  obtain ⟨h1, h2, h3⟩ := h
  cases a; cases b; simp_all

theorem timeCode_inj : Function.Injective timeCode := by
  intro a b h
  simp only [timeCode, Nat.pair_eq_pair] at h
  obtain ⟨h1, h2, h3⟩ := h
  cases a; cases b; simp_all

theorem cellKey_inj : Function.Injective cellKey := by
  intro a b h
  cases a <;> cases b <;>
    simp_all [cellKey, toLex_inj, Prod.mk.injEq, Nat.cast_inj, boolCode_inj.eq_iff,
      dateCode_inj.eq_iff, timeCode_inj.eq_iff, Nat.pair_eq_pair]

/-! ### `idxmax` -/

theorem firstMaxBy_eq_none {α : Type} (f : α → ℚ) : ∀ (l : List α),
    firstMaxBy f l = none ↔ l = []
  | [] => by simp [firstMaxBy]
  | x :: xs => by
    simp only [firstMaxBy]
    cases hxs : firstMaxBy f xs with
    | none => simp
    | some z =>
      dsimp only
      split <;> simp

theorem firstMaxBy_spec {α : Type} (f : α → ℚ) :
    ∀ (l : List α) (y : α), firstMaxBy f l = some y →
      (∀ x ∈ l, f x ≤ f y) ∧ ∃ pre suf, l = pre ++ y :: suf ∧ ∀ x ∈ pre, f x < f y
  | [], y => by simp [firstMaxBy]
  | x :: xs, y => by
    simp only [firstMaxBy]
    cases hxs : firstMaxBy f xs with
    | none =>
      intro h
      have hx : x = y := by injection h
      subst hx
      have hxs' : xs = [] := (firstMaxBy_eq_none f xs).mp hxs
      subst hxs'
      exact ⟨by simp, [], [], rfl, by simp⟩
    | some z =>
      dsimp only
      by_cases hlt : f x < f z
      · rw [if_pos hlt]
        intro h
        have hz : z = y := by injection h
        subst hz
        obtain ⟨hall, pre, suf, heq, hpre⟩ := firstMaxBy_spec f xs z hxs
        refine ⟨?_, x :: pre, suf, by rw [heq]; simp, ?_⟩
        · intro w hw
          rcases List.mem_cons.mp hw with rfl | hw'
          · exact le_of_lt hlt
          · exact hall w hw'
        · intro w hw
          rcases List.mem_cons.mp hw with rfl | hw'
          · exact hlt
          · exact hpre w hw'
      · rw [if_neg hlt]
        intro h
        have hx : x = y := by injection h
        subst hx
        obtain ⟨hall, _⟩ := firstMaxBy_spec f xs z hxs
        refine ⟨?_, [], xs, rfl, by simp⟩
        intro w hw
        rcases List.mem_cons.mp hw with rfl | hw'
        · exact le_refl _
        · exact (hall w hw').trans (not_lt.mp hlt)

/-! ### Partition counting -/

theorem sum_map_add_nat {κ : Type} (f g : κ → ℕ) : ∀ (ks : List κ),
    (ks.map (fun k => f k + g k)).sum = (ks.map f).sum + (ks.map g).sum
  | [] => rfl
  | k :: ks => by
    simp only [List.map_cons, List.sum_cons, sum_map_add_nat f g ks]
    omega

theorem sum_indicator_zero {κ : Type} [DecidableEq κ] (x : κ) : ∀ (ks : List κ), x ∉ ks →
    (ks.map (fun k => if x = k then 1 else 0)).sum = 0
  | [], _ => rfl
  | k :: ks, hx => by
    have h1 : x ≠ k := fun h => hx (h ▸ List.mem_cons_self _ _)
    simp only [List.map_cons, List.sum_cons, if_neg h1,
      sum_indicator_zero x ks (fun h => hx (List.mem_cons_of_mem _ h))]

theorem sum_indicator_one {κ : Type} [DecidableEq κ] (x : κ) : ∀ (ks : List κ),
    ks.Nodup → x ∈ ks → (ks.map (fun k => if x = k then 1 else 0)).sum = 1
  | [], _, hx => absurd hx (by simp)
  | k :: ks, hnd, hx => by
    rcases List.mem_cons.mp hx with rfl | hx'
    · have hnot : x ∉ ks := (List.nodup_cons.mp hnd).1
      simp [sum_indicator_zero x ks hnot]
    · have hne : x ≠ k := by
        intro h
        exact (List.nodup_cons.mp hnd).1 (h ▸ hx')
      simp [if_neg hne, sum_indicator_one x ks (List.nodup_cons.mp hnd).2 hx']

theorem counts_partition {α κ : Type} [DecidableEq κ] (key : α → κ) (ks : List κ)
    (hnd : ks.Nodup) : ∀ (l : List α), (∀ a ∈ l, key a ∈ ks) →
    (ks.map (fun k => (l.filter (fun a => decide (key a = k))).length)).sum = l.length
  | [], _ => by
    induction ks <;> simp_all
  | a :: l, hcov => by
    have step : (fun k => ((a :: l).filter (fun x => decide (key x = k))).length)
        = fun k => (if key a = k then 1 else 0) + (l.filter (fun x => decide (key x = k))).length := by
      funext k
      by_cases h : key a = k
      · simp [List.filter_cons, h]
        omega
      · simp [List.filter_cons, h]
    rw [step, sum_map_add_nat, sum_indicator_one (key a) ks hnd (hcov a (List.mem_cons_self a l)),
      counts_partition key ks hnd l (fun x hx => hcov x (List.mem_cons_of_mem a hx))]
    simp [Nat.add_comm]

/-! ### Structure of cleaned rows -/

theorem toDatetimeCoerce_shape (c : Cell) :
    toDatetimeCoerce c = Cell.na ∨ ∃ d t, toDatetimeCoerce c = Cell.dt d t := by
  cases c with
  | str s =>
    cases hps : parseDate s with
    | none => left; simp [toDatetimeCoerce, hps]
    | some d => right; exact ⟨d, ⟨0, 0, 0⟩, by simp [toDatetimeCoerce, hps]⟩
  | date d => right; exact ⟨d, ⟨0, 0, 0⟩, rfl⟩
  | dt d t => right; exact ⟨d, t, rfl⟩
  | na => left; rfl
  | num q => left; rfl
  | time t => left; rfl
  | bool b => left; rfl

theorem qtyPos_spec {r : Row} (h : qtyPos r = true) :
    ∃ q, r.transaction_qty = Cell.num q ∧ 0 < q := by
  unfold qtyPos at h
  cases hc : r.transaction_qty <;> rw [hc] at h <;> simp_all

theorem priceOk_spec {r : Row} (h : priceOk r = true) :
    ∃ p, r.unit_price = Cell.num p ∧ 1/100 ≤ p ∧ p ≤ 15 := by
  unfold priceOk at h
  cases hc : r.unit_price <;> rw [hc] at h <;> simp_all

theorem timeKnown_spec {r : Row} (h : timeKnown r = true) :
    ∃ tt, r.transaction_time = Cell.time tt := by
  unfold timeKnown at h
  cases hc : r.transaction_time <;> rw [hc] at h <;> simp_all

theorem storeOk_spec {r : Row} (h : storeOk r = true) :
    isNA r.store_location = false ∧ isNA r.product_detail = false := by
  unfold storeOk at h
  simp only [Bool.and_eq_true, Bool.not_eq_true'] at h
  exact h

theorem mem_stage5 {t : List Row} {r : Row} (hr : r ∈ stage5 t) :
    ∃ (dd : Date) (t0 : TimeOfDay) (q p : ℚ),
      r.transaction_date = Cell.dt dd t0 ∧
      r.transaction_qty = Cell.num q ∧ 0 < q ∧
      r.unit_price = Cell.num p ∧ 1/100 ≤ p ∧ p ≤ 15 ∧
      isNA r.store_location = false ∧ isNA r.product_detail = false ∧
      r.revenue = Cell.num (q * p) := by
  unfold stage5 at hr
  obtain ⟨r6, hr6, rfl⟩ := List.mem_map.mp hr
  obtain ⟨hr6', hstore⟩ := List.mem_filter.mp hr6
  obtain ⟨hr6'', hprice⟩ := List.mem_filter.mp hr6'
  obtain ⟨r3, hr3, rfl⟩ := List.mem_map.mp hr6''
  obtain ⟨hr3', hqty⟩ := List.mem_filter.mp hr3
  obtain ⟨r1, hr1, rfl⟩ := List.mem_map.mp hr3'
  obtain ⟨hr1', hdate⟩ := List.mem_filter.mp hr1
  obtain ⟨r0, _, rfl⟩ := List.mem_map.mp hr1'
  obtain ⟨q, hq, hqpos⟩ := qtyPos_spec hqty
  obtain ⟨p, hp, hp1, hp2⟩ := priceOk_spec hprice
  obtain ⟨hs1, hs2⟩ := storeOk_spec hstore
  have hq' : (parsePriceStep (parseQtyStep (parseDatesStep r0))).transaction_qty = Cell.num q := by
    simpa [parsePriceStep] using hq
  rcases toDatetimeCoerce_shape r0.transaction_date with hna | ⟨dd, t0, hdt⟩
  · exfalso
    simp [hasDate, parseDatesStep, hna, isNA] at hdate
  · refine ⟨dd, t0, q, p, ?_, ?_, hqpos, ?_, hp1, hp2, ?_, ?_, ?_⟩
    · simpa [revenueStep, parsePriceStep, parseQtyStep, parseDatesStep] using hdt
    · simpa [revenueStep] using hq'
    · simpa [revenueStep] using hp
    · simpa [revenueStep] using hs1
    · simpa [revenueStep] using hs2
    · simp only [revenueStep, hq', hp]

theorem cleanCore_ok_iff {t d : List Row} : cleanCore t = Except.ok d ↔
    (stage5 t).all timeKnown = true ∧ d = ((stage5 t).map datetimeStep).map featuresStep := by
  unfold cleanCore
  by_cases h : (stage5 t).all timeKnown = true
  · simp only [h, if_true, true_and, Except.ok.injEq]
    exact eq_comm
  · simp [h]

theorem cleanCore_mem {t d : List Row} (hok : cleanCore t = Except.ok d) {r : Row} (hr : r ∈ d) :
    ∃ (dd : Date) (t0 tt : TimeOfDay) (q p : ℚ),
      r.transaction_date = Cell.dt dd t0 ∧
      r.transaction_time = Cell.time tt ∧
      r.transaction_qty = Cell.num q ∧ 0 < q ∧
      r.unit_price = Cell.num p ∧ 1/100 ≤ p ∧ p ≤ 15 ∧
      isNA r.store_location = false ∧ isNA r.product_detail = false ∧
      r.revenue = Cell.num (q * p) ∧
      r.datetime = Cell.dt dd tt ∧
      r.year = Cell.num (dd.year : ℚ) ∧ r.month = Cell.num (dd.month : ℚ) ∧
      r.day_of_week = Cell.str (dayName dd) ∧ r.hour = Cell.num (tt.hour : ℚ) ∧
      r.is_weekend = Cell.bool (is_weekendB dd) := by
  obtain ⟨hall, rfl⟩ := cleanCore_ok_iff.mp hok
  obtain ⟨r5', hr5', rfl⟩ := List.mem_map.mp hr
  obtain ⟨r5, hr5, rfl⟩ := List.mem_map.mp hr5'
  have htime : timeKnown r5 = true := by
    have := List.all_eq_true.mp hall r5 hr5
    simpa using this
  obtain ⟨tt, htt⟩ := timeKnown_spec htime
  obtain ⟨dd, t0, q, p, h1, h2, h3, h4, h5, h6, h7, h8, h9⟩ := mem_stage5 hr5
  obtain ⟨f1, f2, f3, f4, f5, f6, f7, f8, f9, f10, f11, f12, f13, f14, f15⟩ := r5
  simp only at h1 h2 h4 h7 h8 h9 htt
  subst h1 h2 h4 h9 htt
  refine ⟨dd, t0, tt, q, p, ?_, ?_, ?_, h3, ?_, h5, h6, ?_, ?_, ?_, ?_, ?_, ?_, ?_, ?_, ?_⟩ <;>
    simp [featuresStep, datetimeStep, h7, h8]

theorem clean_data_ok_iff {t d : List Row} : clean_data t = Except.ok d ↔
    ∃ core, cleanCore t = Except.ok core ∧ d = dedupFirst core := by
  unfold clean_data
  cases h : cleanCore t with
  | ok core =>
    simp only [Except.map, Except.ok.injEq]
    constructor
    · intro hd
      exact ⟨core, rfl, hd.symm⟩
    · rintro ⟨c, hc, rfl⟩
      rw [hc]
  | error e => simp [Except.map]

theorem clean_data_mem {t d : List Row} (hok : clean_data t = Except.ok d) {r : Row}
    (hr : r ∈ d) :
    ∃ (dd : Date) (t0 tt : TimeOfDay) (q p : ℚ),
      r.transaction_date = Cell.dt dd t0 ∧
      r.transaction_time = Cell.time tt ∧
      r.transaction_qty = Cell.num q ∧ 0 < q ∧
      r.unit_price = Cell.num p ∧ 1/100 ≤ p ∧ p ≤ 15 ∧
      isNA r.store_location = false ∧ isNA r.product_detail = false ∧
      r.revenue = Cell.num (q * p) ∧
      r.datetime = Cell.dt dd tt ∧
      r.year = Cell.num (dd.year : ℚ) ∧ r.month = Cell.num (dd.month : ℚ) ∧
      r.day_of_week = Cell.str (dayName dd) ∧ r.hour = Cell.num (tt.hour : ℚ) ∧
      r.is_weekend = Cell.bool (is_weekendB dd) := by
  obtain ⟨core, hcore, rfl⟩ := clean_data_ok_iff.mp hok
  exact cleanCore_mem hcore ((mem_dedupFirst _ _).mp hr)

/-- Re-running the Cleaner on its own (non-empty) output reaches the
datetime recombination with every time cell coerced to `NaT`, and the
un-guarded `pd.to_datetime` call raises. -/
theorem reclean_fails {t d : List Row} (hok : clean_data t = Except.ok d) (hne : d ≠ []) :
    clean_data d = Except.error "Unknown datetime string format" := by
  obtain ⟨r, hr⟩ := List.exists_mem_of_ne_nil d hne
  obtain ⟨dd, t0, tt, q, p, h1, h2, h3, h4, h5, h6, h7, h8, h9, -, -, -, -, -, -, -⟩ :=
    clean_data_mem hok hr
  have hd : hasDate (parseDatesStep r) = true := by
    simp [hasDate, parseDatesStep, h1, toDatetimeCoerce, isNA]
  have hq : qtyPos (parseQtyStep (parseDatesStep r)) = true := by
    simp [qtyPos, parseQtyStep, parseDatesStep, h3, toNumCoerce, h4]
  have hp : priceOk (parsePriceStep (parseQtyStep (parseDatesStep r))) = true := by
    simp only [priceOk, parsePriceStep, parseQtyStep, parseDatesStep, h5, toNumCoerce,
      decide_eq_true_eq]
    exact ⟨h6, h7⟩
  have hs : storeOk (parsePriceStep (parseQtyStep (parseDatesStep r))) = true := by
    simp only [storeOk, parsePriceStep, parseQtyStep, parseDatesStep]
    simp [h8, h9]
  have hmem : revenueStep (parsePriceStep (parseQtyStep (parseDatesStep r))) ∈ stage5 d := by
    unfold stage5
    exact List.mem_map_of_mem _ (List.mem_filter.mpr
      ⟨List.mem_filter.mpr
        ⟨List.mem_map_of_mem _ (List.mem_filter.mpr
          ⟨List.mem_map_of_mem _ (List.mem_filter.mpr
            ⟨List.mem_map_of_mem _ hr, hd⟩), hq⟩), hp⟩, hs⟩)
  have htk : timeKnown (revenueStep (parsePriceStep (parseQtyStep (parseDatesStep r)))) = false := by
    simp [timeKnown, revenueStep, parsePriceStep, parseQtyStep, parseDatesStep, h2, toTimeCoerce]
  have hall : (stage5 d).all timeKnown = false :=
    List.all_eq_false.mpr ⟨_, hmem, by simp [htk]⟩
  have hcore : cleanCore d = Except.error "Unknown datetime string format" := by
    unfold cleanCore
    rw [hall]
    simp
  unfold clean_data
  rw [hcore]
  rfl

/-- A cleaned row is determined by its eight original columns: the derived
columns are recomputed from them. -/
theorem cleanCore_row_eq {t d : List Row} (hok : cleanCore t = Except.ok d) {a b : Row}
    (ha : a ∈ d) (hb : b ∈ d) (hraw : sameRaw a b) : a = b := by
  obtain ⟨dd, t0, tt, q, p, a1, a2, a3, -, a5, -, -, -, -, a10, a11, a12, a13, a14, a15, a16⟩ :=
    cleanCore_mem hok ha
  obtain ⟨dd', t0', tt', q', p', b1, b2, b3, -, b5, -, -, -, -, b10, b11, b12, b13, b14, b15, b16⟩ :=
    cleanCore_mem hok hb
  obtain ⟨e1, e2, e3, e4, e5, e6, e7, e8⟩ := hraw
  rw [a1, b1] at e2
  rw [a2, b2] at e3
  rw [a3, b3] at e4
  rw [a5, b5] at e5
  injection e2 with hdd ht0
  injection e3 with htt
  injection e4 with hq
  injection e5 with hp
  subst hdd ht0 htt hq hp
  exact Row.ext e1 (a1.trans b1.symm) (a2.trans b2.symm) (a3.trans b3.symm)
    (a5.trans b5.symm) e6 e7 e8 (a10.trans b10.symm) (a11.trans b11.symm)
    (a12.trans b12.symm) (a13.trans b13.symm) (a14.trans b14.symm)
    (a15.trans b15.symm) (a16.trans b16.symm)

/-! ### Transactions from cleaned rows -/

theorem mapM_toTransaction_mem : ∀ {rows : List Row} {ts : List Transaction},
    rows.mapM toTransaction = some ts → ∀ tx ∈ ts, ∃ r ∈ rows, toTransaction r = some tx := by
  intro rows
  induction rows with
  | nil =>
    intro ts h tx htx
    simp only [List.mapM_nil, pure, Option.some.injEq] at h
    subst h
    simp at htx
  | cons r rs ih =>
    intro ts h tx htx
    rw [List.mapM_cons] at h
    cases hro : toTransaction r with
    | none => rw [hro] at h; simp at h
    | some u =>
      cases hrs : rs.mapM toTransaction with
      | none => rw [hro, hrs] at h; simp at h
      | some ts' =>
        rw [hro, hrs] at h
        simp only [Option.bind_eq_bind, Option.some_bind, pure, Option.some.injEq] at h
        subst h
        rcases List.mem_cons.mp htx with rfl | htx'
        · exact ⟨r, List.mem_cons_self r rs, hro⟩
        · obtain ⟨r', hr', hr'tx⟩ := ih hrs tx htx'
          exact ⟨r', List.mem_cons_of_mem r hr', hr'tx⟩

theorem toTransaction_of_clean {t d : List Row} (hok : clean_data t = Except.ok d) {r : Row}
    (hr : r ∈ d) {tx : Transaction} (htx : toTransaction r = some tx) : 0 < tx.revenue := by
  obtain ⟨dd, t0, tt, q, p, h1, h2, h3, h4, h5, h6, -, -, -, h10, -, -, -, -, -, -⟩ :=
    clean_data_mem hok hr
  unfold toTransaction at htx
  rw [h1, h2, h3, h5, h10] at htx
  simp only [Option.some.injEq] at htx
  subst htx
  exact mul_pos h4 (lt_of_lt_of_le (by norm_num) h6)

/-! ### Permutation invariance of the aggregations -/

theorem sumBy_perm {α : Type} (f : α → ℚ) {l₁ l₂ : List α} (h : l₁.Perm l₂) :
    sumBy f l₁ = sumBy f l₂ :=
  (h.map f).sum_eq

theorem dedup_length_perm {α : Type} [DecidableEq α] {l₁ l₂ : List α} (h : l₁.Perm l₂) :
    (dedupFirst l₁).length = (dedupFirst l₂).length :=
  (perm_of_nodup_of_mem_iff (nodup_dedupFirst _) (nodup_dedupFirst _)
    (fun a => (mem_dedupFirst _ a).trans (h.mem_iff.trans (mem_dedupFirst _ a).symm))).length_eq

theorem uniqueSorted_map_perm {κ α : Type} [DecidableEq κ] {le : κ → κ → Bool}
    (htot : ∀ a b, le a b = true ∨ le b a = true)
    (htr : ∀ a b c, le a b = true → le b c = true → le a c = true)
    (hanti : ∀ a b, le a b = true → le b a = true → a = b)
    (f : α → κ) {l₁ l₂ : List α} (h : l₁.Perm l₂) :
    uniqueSorted le (l₁.map f) = uniqueSorted le (l₂.map f) :=
  uniqueSorted_eq_of_mem_iff htot htr hanti (fun _ => (h.map f).mem_iff)

theorem cellLe_total (a b : Cell) : cellLe a b = true ∨ cellLe b a = true :=
  keyLe_total cellKey a b

theorem cellLe_trans (a b c : Cell) :
    cellLe a b = true → cellLe b c = true → cellLe a c = true :=
  keyLe_trans cellKey a b c

theorem cellLe_antisymm (a b : Cell) : cellLe a b = true → cellLe b a = true → a = b :=
  keyLe_antisymm cellKey_inj a b

theorem idCount_perm {g₁ g₂ : List Enriched} (h : g₁.Perm g₂) : idCount g₁ = idCount g₂ :=
  (h.filter _).length_eq

theorem nuniqueBy_perm (f : Enriched → Cell) {g₁ g₂ : List Enriched} (h : g₁.Perm g₂) :
    nuniqueBy f g₁ = nuniqueBy f g₂ :=
  dedup_length_perm ((h.map f).filter _)

theorem groupKeys_perm (f : Enriched → Cell) {l₁ l₂ : List Enriched} (h : l₁.Perm l₂) :
    groupKeys f l₁ = groupKeys f l₂ :=
  uniqueSorted_eq_of_mem_iff cellLe_total cellLe_trans cellLe_antisymm
    (fun _ => ((h.map f).filter _).mem_iff)

theorem product_group_perm {l₁ l₂ : List Enriched} (h : l₁.Perm l₂) (k : Cell) :
    product_group l₁ k = product_group l₂ k := by
  have hg := h.filter (fun e => decide (e.txn.product = k))
  simp only [product_group, sumBy_perm _ hg, idCount_perm hg]

theorem category_group_perm {l₁ l₂ : List Enriched} (h : l₁.Perm l₂) (k : Cell) :
    category_group l₁ k = category_group l₂ k := by
  have hg := h.filter (fun e => decide (e.txn.category = k))
  simp only [category_group, sumBy_perm _ hg, idCount_perm hg,
    nuniqueBy_perm (fun e => e.txn.product) hg]

theorem store_group_perm {l₁ l₂ : List Enriched} (h : l₁.Perm l₂) (k : Cell) :
    store_group l₁ k = store_group l₂ k := by
  have hg := h.filter (fun e => decide (e.txn.store = k))
  simp only [store_group, sumBy_perm _ hg, idCount_perm hg,
    nuniqueBy_perm (fun e => e.txn.product) hg]

theorem month_group_perm {l₁ l₂ : List Enriched} (h : l₁.Perm l₂) (ym : ℕ × ℕ) :
    month_group l₁ ym = month_group l₂ ym := by
  have hg := h.filter (fun e => decide ((e.txn.year, e.txn.month) = ym))
  simp only [month_group, sumBy_perm _ hg, idCount_perm hg]

theorem day_group_perm {l₁ l₂ : List Enriched} (h : l₁.Perm l₂) (k : String) :
    day_group l₁ k = day_group l₂ k := by
  have hg := h.filter (fun e => decide (e.txn.day_name = k))
  simp only [day_group, sumBy_perm _ hg, hg.length_eq, idCount_perm hg]

theorem hour_group_perm {l₁ l₂ : List Enriched} (h : l₁.Perm l₂) (k : ℕ) :
    hour_group l₁ k = hour_group l₂ k := by
  have hg := h.filter (fun e => decide (e.txn.hour = k))
  simp only [hour_group, sumBy_perm _ hg, hg.length_eq, idCount_perm hg]

theorem product_groups_perm {l₁ l₂ : List Enriched} (h : l₁.Perm l₂) :
    product_groups l₁ = product_groups l₂ := by
  unfold product_groups
  rw [groupKeys_perm _ h]
  exact List.map_congr_left (fun k _ => product_group_perm h k)

theorem category_groups_perm {l₁ l₂ : List Enriched} (h : l₁.Perm l₂) :
    category_groups l₁ = category_groups l₂ := by
  unfold category_groups
  rw [groupKeys_perm _ h, List.map_congr_left (fun k _ => category_group_perm h k)]

theorem store_groups_perm {l₁ l₂ : List Enriched} (h : l₁.Perm l₂) :
    store_groups l₁ = store_groups l₂ := by
  unfold store_groups
  rw [groupKeys_perm _ h]
  exact List.map_congr_left (fun k _ => store_group_perm h k)

theorem natPairLe_total (a b : ℕ × ℕ) : natPairLe a b = true ∨ natPairLe b a = true :=
  keyLe_total _ a b

theorem natPairLe_trans (a b c : ℕ × ℕ) :
    natPairLe a b = true → natPairLe b c = true → natPairLe a c = true :=
  keyLe_trans _ a b c

theorem natPairLe_antisymm (a b : ℕ × ℕ) :
    natPairLe a b = true → natPairLe b a = true → a = b :=
  keyLe_antisymm (fun _ _ hxy => by simpa [toLex_inj] using hxy) a b

theorem strLe_total (a b : String) : strLe a b = true ∨ strLe b a = true :=
  keyLe_total _ a b

theorem strLe_trans (a b c : String) :
    strLe a b = true → strLe b c = true → strLe a c = true :=
  keyLe_trans _ a b c

theorem strLe_antisymm (a b : String) : strLe a b = true → strLe b a = true → a = b :=
  keyLe_antisymm (fun _ _ hxy => hxy) a b

theorem natLe_total (a b : ℕ) : natLe a b = true ∨ natLe b a = true :=
  keyLe_total _ a b

theorem natLe_trans (a b c : ℕ) : natLe a b = true → natLe b c = true → natLe a c = true :=
  keyLe_trans _ a b c

theorem natLe_antisymm (a b : ℕ) : natLe a b = true → natLe b a = true → a = b :=
  keyLe_antisymm (fun _ _ hxy => hxy) a b

theorem monthly_trends_perm {l₁ l₂ : List Enriched} (h : l₁.Perm l₂) :
    monthly_trends l₁ = monthly_trends l₂ := by
  unfold monthly_trends
  rw [uniqueSorted_map_perm natPairLe_total natPairLe_trans natPairLe_antisymm _ h]
  exact List.map_congr_left (fun k _ => month_group_perm h k)

theorem daily_patterns_perm {l₁ l₂ : List Enriched} (h : l₁.Perm l₂) :
    daily_patterns l₁ = daily_patterns l₂ := by
  unfold daily_patterns
  rw [uniqueSorted_map_perm strLe_total strLe_trans strLe_antisymm _ h]
  exact List.map_congr_left (fun k _ => day_group_perm h k)

theorem hourly_patterns_perm {l₁ l₂ : List Enriched} (h : l₁.Perm l₂) :
    hourly_patterns l₁ = hourly_patterns l₂ := by
  unfold hourly_patterns
  rw [uniqueSorted_map_perm natLe_total natLe_trans natLe_antisymm _ h]
  exact List.map_congr_left (fun k _ => hour_group_perm h k)

/-- When every row has a present id and a present group key, the per-group
non-missing-id counts over the dropna key list partition the row count. -/
theorem idCount_partition (key : Enriched → Cell) (l : List Enriched)
    (hid : ∀ e ∈ l, isNA e.txn.tid = false) (hkey : ∀ e ∈ l, isNA (key e) = false) :
    ((groupKeys key l).map
      (fun k => idCount (l.filter (fun e => decide (key e = k))))).sum = l.length := by
  have hkeys : groupKeys key l = uniqueSorted cellLe (l.map key) := by
    unfold groupKeys
    congr 1
    refine List.filter_eq_self.mpr ?_
    intro c hc
    obtain ⟨e, he, rfl⟩ := List.mem_map.mp hc
    simp [hkey e he]
  have hsum : ∀ k, idCount (l.filter (fun e => decide (key e = k)))
      = (l.filter (fun e => decide (key e = k))).length := by
    intro k
    unfold idCount
    congr 1
    refine List.filter_eq_self.mpr ?_
    intro e he
    simp [hid e (List.mem_of_mem_filter he)]
  rw [hkeys, List.map_congr_left (fun k _ => hsum k)]
  exact counts_partition key _ (nodup_uniqueSorted _ _) l
    (fun a ha => (mem_uniqueSorted _ _ _).mpr (List.mem_map_of_mem _ ha))

/-! ### String head lemmas for the insight texts -/

theorem headChar_append_left {a : String} (b : String) {c : Char} (h : headChar a = some c) :
    headChar (a ++ b) = some c := by
  unfold headChar at h ⊢
  rw [String.data_append, List.head?_append, h]
  rfl

theorem bestStoreInsight_ne {s t : String} {c : Char} (ht : headChar t = some c)
    (hc : c ≠ 'B') : bestStoreInsight s ≠ t := by
  intro h
  have h1 : headChar (bestStoreInsight s) = some 'B' := headChar_append_left s rfl
  rw [h, ht] at h1
  injection h1 with h2
  exact hc h2

/-! ### Claims -/

/-- C1 counterexample: the single legal raw row `rowTiny` (quantity 0.4 at
price 0.01) survives cleaning, and the product summary's one group has
reported revenue `0` with `profit_margin = NaN` (modelled `none`) — not the
fallback `0` the claim asserts for aggregation groups with zero revenue. -/
theorem C1_group_margin_nan_counterexample :
    (run_complete [rowTiny]).map (fun R =>
        R.product_analysis.product_metrics.map (fun g => (g.revenue, g.profit_margin)))
      = Except.ok [((0 : ℚ), (none : Option ℚ))] ∧
    (none : Option ℚ) ≠ some 0 := by
  constructor
  · with_unfolding_all decide
  · simp

/-- C1 (amended): per-record margins computed during enrichment are always
defined — never a division error or NaN — because every cleaned record has
revenue > 0; and the financial summary's overall margin carries the explicit
zero guard: it is 0 when total revenue is 0 and profit/revenue otherwise.
(Group-level margins carry no guard; see the counterexample.) -/
theorem C1_margin_guards :
    (∀ t : List Row, ∀ e ∈ pipelineEnriched t, 0 < e.txn.revenue ∧
      e.profit_margin = some (e.estimated_profit / e.txn.revenue)) ∧
    (∀ l : List Enriched, (analyze_financial_summary l).total_revenue = 0 →
      (analyze_financial_summary l).overall_profit_margin = 0) ∧
    (∀ l : List Enriched, 0 < (analyze_financial_summary l).total_revenue →
      (analyze_financial_summary l).overall_profit_margin =
        (analyze_financial_summary l).total_estimated_profit /
          (analyze_financial_summary l).total_revenue) := by
  refine ⟨?_, ?_, ?_⟩
  · intro t e he
    unfold pipelineEnriched at he
    cases hR : run_complete t with
    | error msg => rw [hR] at he; simp at he
    | ok R =>
      rw [hR] at he
      dsimp only at he
      unfold run_complete at hR
      cases hcd : clean_data t with
      | error m => rw [hcd] at hR; simp [Except.bind] at hR
      | ok d =>
        rw [hcd] at hR
        rw [show (Except.ok d).bind analyze_profitability = analyze_profitability d from rfl] at hR
        unfold analyze_profitability at hR
        cases hm : d.mapM toTransaction with
        | none => rw [hm] at hR; simp at hR
        | some ts =>
          rw [hm] at hR
          dsimp only at hR
          by_cases hemp : (ts.map enrich).isEmpty = true
          · rw [if_pos hemp] at hR
            simp at hR
          · rw [if_neg hemp] at hR
            have hRe : R.enriched = ts.map enrich := by
              injection hR with h
              rw [← h]
            rw [hRe] at he
            obtain ⟨tx, htxmem, rfl⟩ := List.mem_map.mp he
            obtain ⟨r, hrd, hrtx⟩ := mapM_toTransaction_mem hm tx htxmem
            have hrev := toTransaction_of_clean hcd hrd hrtx
            refine ⟨hrev, ?_⟩
            simp [enrich, div0, ne_of_gt hrev]
  · intro l h
    simp only [analyze_financial_summary] at h ⊢
    rw [h]
    simp
  · intro l h
    simp only [analyze_financial_summary] at h ⊢
    rw [if_pos h]

/-- Witness for C1_margin_guards: the enriched form of `rowA` has positive
revenue and a defined margin; the financial summary of an empty frame has
total revenue 0 and margin 0; on a non-empty frame the margin equals
profit/revenue. -/
theorem C1_margin_guards_witness :
    (0 < (enrich txnA).txn.revenue ∧
      (enrich txnA).profit_margin =
        some ((enrich txnA).estimated_profit / (enrich txnA).txn.revenue)) ∧
    (analyze_financial_summary []).overall_profit_margin = 0 ∧
    (analyze_financial_summary [enrich txnA]).overall_profit_margin =
      (analyze_financial_summary [enrich txnA]).total_estimated_profit /
        (analyze_financial_summary [enrich txnA]).total_revenue := by
  refine ⟨?_, ?_, ?_⟩
  · exact C1_margin_guards.1 [rowA] (enrich txnA) (by with_unfolding_all decide)
  · exact C1_margin_guards.2.1 [] (by with_unfolding_all decide)
  · exact C1_margin_guards.2.2 [enrich txnA] (by with_unfolding_all decide)

/-- C2: the enrichment multiplies revenue by the category cost-rate table
(Coffee 0.35, Tea 0.30, Drinking Chocolate 0.40, Frappé 0.45, Smoothies
0.50, Bakery 0.60, Branded 0.70, Flavours 0.25, default 0.50 otherwise),
with cost = revenue × rate and profit = revenue − cost; scenario A (qty 2,
price 3.50, Coffee) yields revenue 7.00, cost 2.45, profit 4.55 and
margin 0.65 through the full pipeline. -/
theorem C2_cost_model :
    (∀ tx : Transaction,
      (enrich tx).cost_rate = cost_rules tx.category ∧
      (enrich tx).estimated_cost = tx.revenue * cost_rules tx.category ∧
      (enrich tx).estimated_profit = tx.revenue - (enrich tx).estimated_cost) ∧
    cost_rules (Cell.str "Coffee") = 35/100 ∧
    cost_rules (Cell.str "Tea") = 30/100 ∧
    cost_rules (Cell.str "Drinking Chocolate") = 40/100 ∧
    cost_rules (Cell.str "Frappé") = 45/100 ∧
    cost_rules (Cell.str "Smoothies") = 50/100 ∧
    cost_rules (Cell.str "Bakery") = 60/100 ∧
    cost_rules (Cell.str "Branded") = 70/100 ∧
    cost_rules (Cell.str "Flavours") = 25/100 ∧
    (∀ c : Cell, c ≠ Cell.str "Coffee" → c ≠ Cell.str "Tea" →
      c ≠ Cell.str "Drinking Chocolate" → c ≠ Cell.str "Frappé" →
      c ≠ Cell.str "Smoothies" → c ≠ Cell.str "Bakery" → c ≠ Cell.str "Branded" →
      c ≠ Cell.str "Flavours" → cost_rules c = 1/2) ∧
    (run_complete [rowA]).map (fun R =>
        R.enriched.map (fun e =>
          (e.txn.revenue, e.estimated_cost, e.estimated_profit, e.profit_margin)))
      = Except.ok [((7 : ℚ), (49 : ℚ)/20, (91 : ℚ)/20, some ((13 : ℚ)/20))] := by
  refine ⟨?_, rfl, rfl, rfl, rfl, rfl, rfl, rfl, rfl, ?_, ?_⟩
  · intro tx
    refine ⟨rfl, rfl, rfl⟩
  · intro c h1 h2 h3 h4 h5 h6 h7 h8
    unfold cost_rules
    split <;> simp_all
  · with_unfolding_all decide

/-- Witness for C2_cost_model: the cost fields of an enriched concrete
transaction, and the default rate of the unknown category of scenario D. -/
theorem C2_cost_model_witness :
    ((enrich txnA).cost_rate = cost_rules txnA.category ∧
      (enrich txnA).estimated_cost = txnA.revenue * cost_rules txnA.category ∧
      (enrich txnA).estimated_profit = txnA.revenue - (enrich txnA).estimated_cost) ∧
    cost_rules (Cell.str "Unknown") = 1/2 := by
  refine ⟨C2_cost_model.1 txnA, ?_⟩
  exact C2_cost_model.2.2.2.2.2.2.2.2.2.1 (Cell.str "Unknown")
    (by decide) (by decide) (by decide) (by decide) (by decide) (by decide)
    (by decide) (by decide)

/-- C3: every transaction surviving cleaning has quantity > 0, unit price
in [0.01, 15.00], store location and product detail present, and revenue
equal to quantity × unit price. -/
theorem C3_clean_invariants :
    ∀ t d : List Row, clean_data t = Except.ok d → ∀ r ∈ d, cleanRowOk r := by
  intro t d hok r hr
  obtain ⟨dd, t0, tt, q, p, -, -, h3, h4, h5, h6, h7, h8, h9, h10, -, -, -, -, -, -⟩ :=
    clean_data_mem hok hr
  exact ⟨q, p, h3, h4, h5, h6, h7, h8, h9, h10⟩

/-- Witness for C3_clean_invariants: the cleaned form of `rowA`. -/
theorem C3_clean_invariants_witness : cleanRowOk cleanedRowA :=
  C3_clean_invariants [rowA] [cleanedRowA] (by with_unfolding_all decide)
    cleanedRowA (List.mem_singleton.mpr rfl)

/-- C4: the datetime recombination is not exception-safe.  A raw row with a
valid date but an unparsable time survives the earlier cleaning steps with
time `NaT`; the un-guarded `pd.to_datetime` call on line 77 then raises,
aborting the whole cleaning run (while a fully valid row cleans fine). -/
theorem C4_time_combination_raises :
    clean_data [rowBadTime] = Except.error "Unknown datetime string format" ∧
    (clean_data [rowA]).map List.length = Except.ok 1 := by
  constructor <;> with_unfolding_all decide

/-- C5 counterexample: for the legal pipeline input `rowQuarter` (qty 1 at
price 0.25, Coffee), the reported product margin is 0.64 — computed from the
2-decimal-rounded sums 0.16/0.25 — while rounding once from the raw sums
(0.1625/0.25 = 0.65) gives 0.65. -/
theorem C5_rounding_counterexample :
    (run_complete [rowQuarter]).map (fun R =>
        R.product_analysis.product_metrics.map (fun g => g.profit_margin))
      = Except.ok [some ((64 : ℚ)/100)] ∧
    (run_complete [rowQuarter]).map (fun R =>
        specProductMarginOnce R.enriched (Cell.str "Drip"))
      = Except.ok (some ((65 : ℚ)/100)) ∧
    ((64 : ℚ)/100) ≠ (65 : ℚ)/100 := by
  refine ⟨?_, ?_, ?_⟩ <;> with_unfolding_all decide

/-- C5 (amended): the `agg` sums are rounded to 2 decimals first, and every
derived ratio is computed from those already-rounded aggregates and then
rounded again (3 decimals for margins and revenue share, 2 decimals for
per-unit profit and average transaction value); `revenue_share` divides by
the sum of the rounded per-category revenues. -/
theorem C5_rounding_after_aggregation :
    ∀ l : List Enriched,
      (∀ g ∈ product_groups l,
        g.revenue = round_half_even 2 (sumBy revOf (productOf l g.key)) ∧
        g.estimated_profit = round_half_even 2 (sumBy profOf (productOf l g.key)) ∧
        g.qty = round_half_even 2 (sumBy qtyOf (productOf l g.key)) ∧
        g.profit_margin = roundOpt 3 (div0 g.estimated_profit g.revenue) ∧
        g.avg_profit_per_unit = roundOpt 2 (div0 g.estimated_profit g.qty)) ∧
      (∀ g ∈ category_groups l,
        g.revenue = round_half_even 2 (sumBy revOf (categoryOf l g.key)) ∧
        g.estimated_profit = round_half_even 2 (sumBy profOf (categoryOf l g.key)) ∧
        g.profit_margin = roundOpt 3 (div0 g.estimated_profit g.revenue) ∧
        g.revenue_share = roundOpt 3 (div0 g.revenue (categoryRevenueTotal l))) ∧
      (∀ g ∈ store_groups l,
        g.revenue = round_half_even 2 (sumBy revOf (storeOf l g.key)) ∧
        g.estimated_profit = round_half_even 2 (sumBy profOf (storeOf l g.key)) ∧
        g.profit_margin = roundOpt 3 (div0 g.estimated_profit g.revenue) ∧
        g.avg_transaction_value = roundOpt 2 (div0 g.revenue (g.tx_count : ℚ))) ∧
      (∀ g ∈ monthly_trends l,
        g.revenue = round_half_even 2 (sumBy revOf (monthOf l (g.year, g.month))) ∧
        g.estimated_profit = round_half_even 2 (sumBy profOf (monthOf l (g.year, g.month))) ∧
        g.profit_margin = roundOpt 3 (div0 g.estimated_profit g.revenue)) := by
  intro l
  refine ⟨?_, ?_, ?_, ?_⟩
  · intro g hg
    unfold product_groups at hg
    obtain ⟨k, -, rfl⟩ := List.mem_map.mp hg
    exact ⟨rfl, rfl, rfl, rfl, rfl⟩
  · intro g hg
    unfold category_groups at hg
    obtain ⟨g0, hg0, rfl⟩ := List.mem_map.mp hg
    obtain ⟨k, -, rfl⟩ := List.mem_map.mp hg0
    refine ⟨rfl, rfl, rfl, ?_⟩
    show roundOpt 3 (div0 (category_group l k).revenue _) =
      roundOpt 3 (div0 (category_group l k).revenue (categoryRevenueTotal l))
    congr 1
    unfold categoryRevenueTotal
    rw [List.map_map]
    rfl
  · intro g hg
    unfold store_groups at hg
    obtain ⟨k, -, rfl⟩ := List.mem_map.mp hg
    exact ⟨rfl, rfl, rfl, rfl⟩
  · intro g hg
    unfold monthly_trends at hg
    obtain ⟨ym, -, rfl⟩ := List.mem_map.mp hg
    exact ⟨rfl, rfl, rfl⟩

/-- Witness for C5_rounding_after_aggregation at a concrete one-row frame. -/
theorem C5_rounding_after_aggregation_witness :
    (product_group [enrich txnA] (Cell.str "Latte")).revenue =
      round_half_even 2 (sumBy revOf (productOf [enrich txnA]
        (product_group [enrich txnA] (Cell.str "Latte")).key)) ∧
    (product_group [enrich txnA] (Cell.str "Latte")).profit_margin =
      roundOpt 3 (div0 (product_group [enrich txnA] (Cell.str "Latte")).estimated_profit
        (product_group [enrich txnA] (Cell.str "Latte")).revenue) := by
  have h := (C5_rounding_after_aggregation [enrich txnA]).1
    (product_group [enrich txnA] (Cell.str "Latte")) (by with_unfolding_all decide)
  exact ⟨h.1, h.2.2.2.1⟩

/-- C6: the Cleaner is not idempotent on its own output — re-running it
does not merely keep the row count, it raises.  On re-parse every
already-parsed time value is coerced to `NaT` (`datetime.time` objects are
not convertible), so the datetime recombination of line 77 raises for any
non-empty cleaned output; concretely, cleaning `[rowA]` succeeds with one
row but cleaning the result again errors. -/
theorem C6_reclean_raises :
    (∀ t d : List Row, clean_data t = Except.ok d → d ≠ [] →
      clean_data d = Except.error "Unknown datetime string format") ∧
    (clean_data [rowA]).map List.length = Except.ok 1 ∧
    (clean_data [rowA]).bind clean_data = Except.error "Unknown datetime string format" := by
  refine ⟨fun t d hok hne => reclean_fails hok hne, ?_, ?_⟩ <;> with_unfolding_all decide

/-- Witness for C6_reclean_raises: re-cleaning the cleaned form of `rowA`
raises. -/
theorem C6_reclean_raises_witness :
    clean_data [cleanedRowA] = Except.error "Unknown datetime string format" :=
  C6_reclean_raises.1 [rowA] [cleanedRowA] (by with_unfolding_all decide) (by simp)

/-- C7: after cleaning, no two surviving rows coincide on all original raw
columns, the cleaned output is `drop_duplicates` of the pre-dedup rows,
every first occurrence survives (memberships are preserved), and only later
occurrences are removed (the output is a sublist of the pre-dedup rows). -/
theorem C7_dedup_first :
    ∀ t core : List Row, cleanCore t = Except.ok core →
      clean_data t = Except.ok (dedupFirst core) ∧
      rawDistinct (dedupFirst core) ∧
      (∀ x ∈ core, x ∈ dedupFirst core) ∧
      (dedupFirst core).Sublist core := by
  intro t core hcore
  refine ⟨?_, ?_, fun x hx => (mem_dedupFirst core x).mpr hx, dedupFirst_sublist core⟩
  · unfold clean_data
    rw [hcore]
    rfl
  · unfold rawDistinct
    refine List.Pairwise.imp_of_mem ?_ (nodup_dedupFirst core)
    intro a b ha hb hne hraw
    exact hne (cleanCore_row_eq hcore ((mem_dedupFirst core a).mp ha)
      ((mem_dedupFirst core b).mp hb) hraw)

/-- Witness for C7_dedup_first: a raw table with a duplicated row. -/
theorem C7_dedup_first_witness :
    clean_data [rowA, rowA, rowB] =
      Except.ok (dedupFirst [cleanedRowA, cleanedRowA, cleanedRowB]) ∧
    rawDistinct (dedupFirst [cleanedRowA, cleanedRowA, cleanedRowB]) ∧
    cleanedRowA ∈ dedupFirst [cleanedRowA, cleanedRowA, cleanedRowB] := by
  have h := C7_dedup_first [rowA, rowA, rowB] [cleanedRowA, cleanedRowA, cleanedRowB]
    (by with_unfolding_all decide)
  exact ⟨h.1, h.2.1, h.2.2.1 cleanedRowA (by simp)⟩

/-- C8: the four aggregations are pure functions of the transaction *set*:
permuting the input rows leaves every summary, sort order and peak
selection unchanged; and each peak is the group of maximum revenue, with
ties broken by the first occurrence in the grouping's sorted key order
(every strictly earlier group has strictly smaller revenue). -/
theorem C8_permutation_invariance :
    ∀ l₁ l₂ : List Enriched, l₁.Perm l₂ →
      analyze_products l₁ = analyze_products l₂ ∧
      analyze_categories l₁ = analyze_categories l₂ ∧
      analyze_stores l₁ = analyze_stores l₂ ∧
      analyze_temporal_patterns l₁ = analyze_temporal_patterns l₂ ∧
      (∀ g : MonthGroup, firstMaxBy (fun x => x.revenue) (monthly_trends l₁) = some g →
        (analyze_temporal_patterns l₁).peak_month = some g.month ∧
        (∀ x ∈ monthly_trends l₁, x.revenue ≤ g.revenue) ∧
        ∃ pre suf, monthly_trends l₁ = pre ++ g :: suf ∧ ∀ x ∈ pre, x.revenue < g.revenue) ∧
      (∀ g : DayGroup, firstMaxBy (fun x => optVal x.revenue) (daily_patterns l₁) = some g →
        (analyze_temporal_patterns l₁).peak_day = some g.key ∧
        (∀ x ∈ daily_patterns l₁, optVal x.revenue ≤ optVal g.revenue) ∧
        ∃ pre suf, daily_patterns l₁ = pre ++ g :: suf ∧
          ∀ x ∈ pre, optVal x.revenue < optVal g.revenue) ∧
      (∀ g : HourGroup, firstMaxBy (fun x => optVal x.revenue) (hourly_patterns l₁) = some g →
        (analyze_temporal_patterns l₁).peak_hour = some g.key ∧
        (∀ x ∈ hourly_patterns l₁, optVal x.revenue ≤ optVal g.revenue) ∧
        ∃ pre suf, hourly_patterns l₁ = pre ++ g :: suf ∧
          ∀ x ∈ pre, optVal x.revenue < optVal g.revenue) := by
  intro l₁ l₂ h
  refine ⟨?_, ?_, ?_, ?_, ?_, ?_, ?_⟩
  · unfold analyze_products
    rw [product_groups_perm h]
  · unfold analyze_categories
    rw [category_groups_perm h]
  · unfold analyze_stores
    rw [store_groups_perm h]
  · unfold analyze_temporal_patterns
    rw [monthly_trends_perm h, daily_patterns_perm h, hourly_patterns_perm h]
  · intro g hg
    obtain ⟨hall, pre, suf, heq, hpre⟩ := firstMaxBy_spec _ _ g hg
    exact ⟨by simp [analyze_temporal_patterns, hg], hall, pre, suf, heq, hpre⟩
  · intro g hg
    obtain ⟨hall, pre, suf, heq, hpre⟩ := firstMaxBy_spec _ _ g hg
    exact ⟨by simp [analyze_temporal_patterns, hg], hall, pre, suf, heq, hpre⟩
  · intro g hg
    obtain ⟨hall, pre, suf, heq, hpre⟩ := firstMaxBy_spec _ _ g hg
    exact ⟨by simp [analyze_temporal_patterns, hg], hall, pre, suf, heq, hpre⟩

/-- Witness for C8_permutation_invariance: the two orders of a two-row
frame produce identical summaries. -/
theorem C8_permutation_invariance_witness :
    analyze_products [enrich txnA, enrich txnB] = analyze_products [enrich txnB, enrich txnA] ∧
    analyze_categories [enrich txnA, enrich txnB] =
      analyze_categories [enrich txnB, enrich txnA] ∧
    analyze_stores [enrich txnA, enrich txnB] = analyze_stores [enrich txnB, enrich txnA] ∧
    analyze_temporal_patterns [enrich txnA, enrich txnB] =
      analyze_temporal_patterns [enrich txnB, enrich txnA] := by
  have h := C8_permutation_invariance [enrich txnA, enrich txnB] [enrich txnB, enrich txnA]
    (List.Perm.swap (enrich txnB) (enrich txnA) [])
  exact ⟨h.1, h.2.1, h.2.2.1, h.2.2.2.1⟩

/-- C9: the best-performing-store insight is emitted iff the store summary
has more than one store; with two or more stores the named store is the
head of the revenue-sorted summary, which attains the maximum revenue; with
exactly one store no best-store insight of any text appears. -/
theorem C9_best_store_insight :
    ∀ l : List Enriched,
      (1 < (analyze_stores l).store_metrics.length →
        bestStoreInsight (headKeyS (analyze_stores l).store_metrics) ∈
          (generate_insights l).key_insights ∧
        ∀ g ∈ (analyze_stores l).store_metrics,
          g.revenue ≤ headStoreRevenue (analyze_stores l).store_metrics) ∧
      ((analyze_stores l).store_metrics.length = 1 →
        ∀ s : String, bestStoreInsight s ∉ (generate_insights l).key_insights) := by
  intro l
  constructor
  · intro hlen
    constructor
    · simp only [generate_insights]
      rw [if_pos hlen]
      simp
    · intro g hg
      have htot : ∀ a b : StoreGroup, byRevenueDescS a b = true ∨ byRevenueDescS b a = true :=
        keyGe_total (fun x : StoreGroup => x.revenue)
      have htr : ∀ a b c : StoreGroup, byRevenueDescS a b = true →
          byRevenueDescS b c = true → byRevenueDescS a c = true :=
        keyGe_trans (fun x : StoreGroup => x.revenue)
      have hpw := sortLe_pairwise htot htr (store_groups l)
      simp only [analyze_stores] at hg ⊢
      cases hm : sortLe byRevenueDescS (store_groups l) with
      | nil =>
        rw [hm] at hg
        simp at hg
      | cons x rest =>
        rw [hm] at hg hpw
        simp only [headStoreRevenue]
        rcases List.mem_cons.mp hg with rfl | hg'
        · exact le_refl _
        · have hle := List.rel_of_pairwise_cons hpw hg'
          simpa [byRevenueDescS, keyGe] using hle
  · intro hlen s hmem
    have hnot : ¬1 < (analyze_stores l).store_metrics.length := by
      rw [hlen]
      omega
    simp only [generate_insights] at hmem
    rw [if_neg hnot] at hmem
    have hS : bestStoreInsight s ≠ "Strong profitability with >50% profit margin" :=
      bestStoreInsight_ne
        (show headChar "Strong profitability with >50% profit margin" = some 'S' from rfl)
        (by decide)
    have hH : bestStoreInsight s ≠ "Healthy profitability with moderate margins" :=
      bestStoreInsight_ne
        (show headChar "Healthy profitability with moderate margins" = some 'H' from rfl)
        (by decide)
    have hP : bestStoreInsight s ≠ "Profitability needs improvement" :=
      bestStoreInsight_ne
        (show headChar "Profitability needs improvement" = some 'P' from rfl)
        (by decide)
    have hTop : bestStoreInsight s ≠ "Top 3 profit generators: " ++
        joinComma (((analyze_products l).top_performers.take 3).map (fun g => cellText g.key)) :=
      bestStoreInsight_ne (headChar_append_left _ rfl) (by decide)
    have hCat : bestStoreInsight s ≠ "Most profitable category: " ++
        headKeyC (analyze_categories l).category_metrics :=
      bestStoreInsight_ne (headChar_append_left _ rfl) (by decide)
    have hPeak : bestStoreInsight s ≠ "Peak performance: Month " ++
        toString (((analyze_temporal_patterns l).peak_month).getD 0) ++ ", " ++
        ((analyze_temporal_patterns l).peak_day).getD "" ++ "s, " ++
        toString (((analyze_temporal_patterns l).peak_hour).getD 0) ++ ":00" :=
      bestStoreInsight_ne
        (headChar_append_left _ (headChar_append_left _ (headChar_append_left _
          (headChar_append_left _ (headChar_append_left _ rfl))))) (by decide)
    by_cases hc1 : 1/2 < (analyze_financial_summary l).overall_profit_margin
    · rw [if_pos hc1] at hmem
      simp only [List.mem_append, List.mem_singleton, List.mem_nil_iff, or_false] at hmem
      rcases hmem with ((h | h) | h) | h
      · exact hS h
      · exact hTop h
      · exact hCat h
      · exact hPeak h
    · rw [if_neg hc1] at hmem
      by_cases hc2 : 3/10 < (analyze_financial_summary l).overall_profit_margin
      · rw [if_pos hc2] at hmem
        simp only [List.mem_append, List.mem_singleton, List.mem_nil_iff, or_false] at hmem
        rcases hmem with ((h | h) | h) | h
        · exact hH h
        · exact hTop h
        · exact hCat h
        · exact hPeak h
      · rw [if_neg hc2] at hmem
        simp only [List.mem_append, List.mem_singleton, List.mem_nil_iff, or_false] at hmem
        rcases hmem with ((h | h) | h) | h
        · exact hP h
        · exact hTop h
        · exact hCat h
        · exact hPeak h

/-- Witness for C9_best_store_insight: with two stores the best-store
insight is present; with one store, a best-store insight text is absent. -/
theorem C9_best_store_insight_witness :
    bestStoreInsight (headKeyS (analyze_stores [enrich txnA, enrich txnB]).store_metrics) ∈
      (generate_insights [enrich txnA, enrich txnB]).key_insights ∧
    bestStoreInsight "Astoria" ∉ (generate_insights [enrich txnA]).key_insights := by
  constructor
  · exact ((C9_best_store_insight [enrich txnA, enrich txnB]).1
      (by with_unfolding_all decide)).1
  · exact (C9_best_store_insight [enrich txnA]).2 (by with_unfolding_all decide) "Astoria"

/-- C10 counterexample: the partition invariant fails on pipeline-reachable
inputs.  A raw row with a missing transaction_id survives cleaning (the id
column is never validated) but `agg({'transaction_id': 'count'})` excludes
it, so the store-summary counts sum to 0 while `total_transactions` is 1.
A raw row with a missing product_category also survives (only
store_location and product_detail are checked) but `groupby` drops it from
every category group, so with one more fully-valid row the category counts
sum to 1 while `total_transactions` is 2. -/
theorem C10_partition_counterexample :
    (run_complete [rowNoId]).map (fun R =>
        ((storeTxCounts R.enriched).sum,
          (analyze_financial_summary R.enriched).total_transactions))
      = Except.ok ((0 : ℕ), (1 : ℕ)) ∧
    (run_complete [rowA, rowNoCat]).map (fun R =>
        ((categoryTxCounts R.enriched).sum,
          (analyze_financial_summary R.enriched).total_transactions))
      = Except.ok ((1 : ℕ), (2 : ℕ)) ∧
    (0 : ℕ) ≠ 1 ∧ (1 : ℕ) ≠ 2 := by
  refine ⟨?_, ?_, ?_, ?_⟩ <;> with_unfolding_all decide

/-- C10 (amended): for a non-empty enriched set in which every transaction
has a present transaction_id, the store-summary counts sum to
`total_transactions` provided every store_location is present (which
cleaning guarantees), and the category-summary counts sum to
`total_transactions` provided every product_category is present (which
cleaning does not guarantee): under those presence hypotheses the group
keys partition the rows and pandas `count` counts every row. -/
theorem C10_partition_counts :
    ∀ l : List Enriched, l ≠ [] → (∀ e ∈ l, isNA e.txn.tid = false) →
      ((∀ e ∈ l, isNA e.txn.store = false) →
        (storeTxCounts l).sum = (analyze_financial_summary l).total_transactions) ∧
      ((∀ e ∈ l, isNA e.txn.category = false) →
        (categoryTxCounts l).sum = (analyze_financial_summary l).total_transactions) := by
  intro l _ hid
  have htt : (analyze_financial_summary l).total_transactions = l.length := by
    simp [analyze_financial_summary]
  rw [htt]
  constructor
  · intro hstore
    unfold storeTxCounts
    simp only [analyze_stores]
    rw [((sortLe_perm byRevenueDescS (store_groups l)).map (fun g => g.tx_count)).sum_eq]
    unfold store_groups
    rw [List.map_map]
    exact idCount_partition (fun e => e.txn.store) l hid hstore
  · intro hcat
    unfold categoryTxCounts
    simp only [analyze_categories]
    rw [((sortLe_perm byRevenueDescC (category_groups l)).map (fun g => g.tx_count)).sum_eq]
    unfold category_groups
    rw [List.map_map, List.map_map]
    exact idCount_partition (fun e => e.txn.category) l hid hcat

/-- Witness for C10_partition_counts at a concrete two-row frame with all
ids, stores and categories present. -/
theorem C10_partition_counts_witness :
    (storeTxCounts [enrich txnA, enrich txnB]).sum =
      (analyze_financial_summary [enrich txnA, enrich txnB]).total_transactions ∧
    (categoryTxCounts [enrich txnA, enrich txnB]).sum =
      (analyze_financial_summary [enrich txnA, enrich txnB]).total_transactions := by
  have h := C10_partition_counts [enrich txnA, enrich txnB] (by simp)
    (by with_unfolding_all decide)
  exact ⟨h.1 (by with_unfolding_all decide), h.2 (by with_unfolding_all decide)⟩

end CoffeeShop
